import Mathlib

/-!
# Pollard kangaroo solver (Kangaroo.cpp): embedding and properties

The solver class `Kangaroo` of `Kangaroo.cpp` is embedded as a record of the fields
its methods read and write, and each method as a function on that record.

The big-integer and curve library (`SECPK1/`) and the header `Kangaroo.h` are not
among the sources.  What the solver uses of them is modelled as follows.

* `Int` (a signed multi-word integer) is `ℤ`; `Add`, `Sub` and `Neg` are the integer
  operations, the `...K1order` operations reduce modulo the group order.
* Points of the curve form an additive commutative group `E`; `ComputePublicKey k`
  is `k • G` and `AddDirect` the group sum.  For the walk step, which works on affine
  coordinates, points are pairs over the prime field `ZMod p` and the group is the
  point group of the curve `y² = x³ + 7` over that field.
* Random draws (`Int::Rand`) are arguments of the functions that consume them.
-/

/-! ## Big integers (`SECPK1/Int`) -/

/-- Modelled from the spec: `Int::ModAddK1order` of the SECPK1 library, which is not among
the sources.  Scalars are integers modulo the group order `n`: the sum reduced mod `n`. -/
def Int.ModAddK1order (order a b : ℤ) : ℤ := (a + b) % order

/-- Modelled from the spec: `Int::ModSubK1order` of the SECPK1 library, which is not among
the sources.  The difference reduced mod `n`. -/
def Int.ModSubK1order (order a b : ℤ) : ℤ := (a - b) % order

/-- Modelled from the spec: `Int::IsNegative` of the SECPK1 library (sign test). -/
def Int.IsNegative (a : ℤ) : Bool := decide (a < 0)

/-- Modelled from the spec: `Int::GetBitLength` of the SECPK1 library, which is not among
the sources: the bit length of the magnitude, that is the number of binary digits
(`0` for zero, `⌊log2 a⌋ + 1` for a positive `a`). -/
def Int.GetBitLength (a : ℤ) : ℤ := (Nat.size a.natAbs : ℤ)

/-- Modelled from the spec: `Int::ShiftR` of the SECPK1 library: shift right by `k` bits. -/
def Int.ShiftR (a : ℤ) (k : ℕ) : ℤ := a / 2 ^ k

/-- Limb `i` of the field element `x` (`x.bits64[i]`): limbs are 64 bits wide, limb 0 is
the least significant one. -/
def Int.bits64 {p : ℕ} (x : ZMod p) (i : ℕ) : ℕ := x.val / 2 ^ (64 * i) % 2 ^ 64

/-! ## The solver's data -/

/-- Kangaroo type tag `TAME` of `Kangaroo.h` (the spec: Tame is 0). -/
def TAME : ℕ := 0

/-- Kangaroo type tag `WILD` of `Kangaroo.h` (the spec: Wild is 1). -/
def WILD : ℕ := 1

/-- The part of `Secp256K1` the solver reads: the generator and the group order. -/
structure Secp256K1 (E : Type) where
  /-- the generator `secp->G` -/
  G : E
  /-- the group order `secp->order` -/
  order : ℤ

/-- Modelled from the spec: `Secp256K1::ComputePublicKey` (not among the sources):
the scalar multiple `k·G`. -/
def Secp256K1.ComputePublicKey {E : Type} [AddCommGroup E] (secp : Secp256K1 E) (k : ℤ) : E :=
  k • secp.G

/-- Modelled from the spec: `Secp256K1::AddDirect` (not among the sources): the group sum
of two points. -/
def Secp256K1.AddDirect {E : Type} [AddCommGroup E] (_secp : Secp256K1 E) (a b : E) : E :=
  a + b

/-- The record `KANGAROO`: position, accumulated distance and type. -/
structure KANGAROO (E : Type) where
  /-- current point -/
  pos : E
  /-- accumulated distance -/
  distance : ℤ
  /-- `TAME` or `WILD` -/
  type : ℕ

/-- The fields of class `Kangaroo` that the embedded methods read or write.  `stdout`
collects the private keys printed by the `Priv:` lines. -/
structure Kangaroo (E : Type) where
  /-- curve oracle -/
  secp : Secp256K1 E
  /-- start of the searched interval -/
  rangeStart : ℤ
  /-- end of the searched interval -/
  rangeEnd : ℤ
  /-- half of the interval width -/
  rangeHalfWidth : ℤ
  /-- bit length of the interval width -/
  rangePower : ℤ
  /-- number of jump table entries in use -/
  jumpModulo : ℤ
  /-- distinguished point mask (64 bits) -/
  dMask : ℕ
  /-- number of distinguished bits -/
  dpSize : ℤ
  /-- distinguished bits asked for by the user (negative: automatic) -/
  initDPSize : ℤ
  /-- the public key being searched -/
  keyToSearch : E
  /-- all public keys of the configuration file -/
  keysToSearch : List E
  /-- set once the current key is solved -/
  endOfSearch : Bool
  /-- number of collisions inside one herd -/
  collisionInSameHerd : ℕ
  /-- private keys printed so far -/
  stdout : List ℤ
  /-- jump table: points -/
  jumpPoint : ℕ → E
  /-- jump table: distances -/
  jumpDistance : ℕ → ℤ

/-- An affine point `(x, y)` with coordinates in the field `ZMod p`. -/
structure Point (p : ℕ) where
  /-- first coordinate -/
  x : ZMod p
  /-- second coordinate -/
  y : ZMod p
  deriving DecidableEq

/-! ## Kangaroo creation (`Kangaroo::Create`, lines 500-532) -/

/-- `Kangaroo::Create(type)`, with `r` the value drawn by `distance.Rand(rangePower)`. -/
def Kangaroo.Create {E : Type} [AddCommGroup E] (self : Kangaroo E) (type : ℕ) (r : ℤ) :
    KANGAROO E :=
  if type = TAME then
    let pk := Int.ModAddK1order self.secp.order r self.rangeStart
    { pos := self.secp.ComputePublicKey pk, distance := r, type := TAME }
  else
    let d := r - self.rangeHalfWidth
    let d := if Int.IsNegative d then d + self.secp.order else d
    let o := self.secp.ComputePublicKey d
    { pos := self.secp.AddDirect self.keyToSearch o, distance := d, type := WILD }

/-- The creation of kangaroo `j` of a GPU group (`SolveKeyGPU`, lines 336-366), with `r`
the value drawn by `Rand(rangePower)`: the distance `d[..]` and the point `S[j]`, whose
coordinates go to `px`, `py`.  The type of kangaroo `j` is `j % 2`. -/
def Kangaroo.CreateGPU {E : Type} [AddCommGroup E] (self : Kangaroo E) (j : ℕ) (r : ℤ) :
    KANGAROO E :=
  let rgP := self.secp.ComputePublicKey self.rangeStart
  let d :=
    if j % 2 = WILD then
      let d := r - self.rangeHalfWidth
      if Int.IsNegative d then d + self.secp.order else d
    else r
  let S := self.secp.ComputePublicKey d
  let Sp := if j % 2 = TAME then rgP else self.keyToSearch
  { pos := self.secp.AddDirect Sp S, distance := d, type := j % 2 }

/-! ## Collision resolver (`SolveKeyCPU` lines 216-273, `SolveKeyGPU` lines 392-453) -/

/-- The candidate key of lines 230-239 (and 409-418): `rangeStart + dtame - dwild`, where
`kType`/`kDist` belong to the reporting kangaroo and `d` is `hashTable.GetD()`. -/
def Kangaroo.candidate {E : Type} (self : Kangaroo E) (kType : ℕ) (kDist d : ℤ) : ℤ :=
  let pk := self.rangeStart
  if kType = TAME then
    Int.ModSubK1order self.secp.order (Int.ModAddK1order self.secp.order pk kDist) d
  else
    Int.ModSubK1order self.secp.order (Int.ModAddK1order self.secp.order pk d) kDist

/-- The body of `if(hashTable.Add(...))` in `SolveKeyCPU` (lines 218-270) for the kangaroo
`K = herd[g]`: `type` is `hashTable.GetType()`, `d` is `hashTable.GetD()` and `r` the random
draw of a respawn.  Returns the solver and the new `herd[g]`. -/
def Kangaroo.matchCPU {E : Type} [AddCommGroup E] [DecidableEq E] (self : Kangaroo E)
    (K : KANGAROO E) (type : ℕ) (d r : ℤ) : Kangaroo E × KANGAROO E :=
  if type = K.type then
    (({ self with collisionInSameHerd := self.collisionInSameHerd + 1 }),
      self.Create type r)
  else
    let pk := self.candidate K.type K.distance d
    let P := self.secp.ComputePublicKey pk
    if P = self.keyToSearch then
      (({ self with stdout := self.stdout ++ [pk], endOfSearch := true }), K)
    else
      let pk := -pk + self.secp.order
      let P := self.secp.ComputePublicKey pk
      if P = self.keyToSearch then
        (({ self with stdout := self.stdout ++ [pk], endOfSearch := true }), K)
      else
        (self, self.Create type r)

/-- The body of `if(hashTable.Add(...))` in `SolveKeyGPU` (lines 396-450) for the item with
kangaroo index `kIdx` and distance `itemD`.  The second component is the kangaroo handed to
`gpu->SetKangaroo(kIdx, ...)`, if any. -/
def Kangaroo.matchGPU {E : Type} [AddCommGroup E] [DecidableEq E] (self : Kangaroo E)
    (kIdx : ℕ) (itemD : ℤ) (type : ℕ) (d r : ℤ) : Kangaroo E × Option (KANGAROO E) :=
  let kType := kIdx % 2
  if type = kType then
    (({ self with collisionInSameHerd := self.collisionInSameHerd + 1 }),
      some (self.Create kType r))
  else
    let pk := self.candidate kType itemD d
    let P := self.secp.ComputePublicKey pk
    if P = self.keyToSearch then
      (({ self with stdout := self.stdout ++ [pk], endOfSearch := true }), none)
    else
      let pk := -pk + self.secp.order
      let P := self.secp.ComputePublicKey pk
      if P = self.keyToSearch then
        (({ self with stdout := self.stdout ++ [pk], endOfSearch := true }), none)
      else
        (self, some (self.Create kType r))

/-! ## Distinguished points (`Kangaroo::IsDP`, `Kangaroo::SetDP`, lines 118-135) -/

/-- `Kangaroo::IsDP(x)` for a 64-bit word `x`. -/
def Kangaroo.IsDP {E : Type} (self : Kangaroo E) (x : ℕ) : Bool :=
  (x &&& self.dMask) == 0

/-- `Kangaroo::SetDP(size)`.  Words are 64 bits wide: the subtraction wraps and `~` is the
complement to `2^64 - 1`.  (A negative `size` makes the C++ shift count exceed 63, which is
undefined there; `Run` never passes one.) -/
def Kangaroo.SetDP {E : Type} (self : Kangaroo E) (size : ℤ) : Kangaroo E :=
  let dpSize := size
  if dpSize = 0 then
    { self with dpSize := dpSize, dMask := 0 }
  else
    let dpSize := if dpSize > 64 then 64 else dpSize
    let dMask := ((1 <<< (64 - dpSize).toNat) % 2 ^ 64 + 2 ^ 64 - 1) % 2 ^ 64
    let dMask := 2 ^ 64 - 1 - dMask
    { self with dpSize := dpSize, dMask := dMask }

/-! ## Configuration file (`Kangaroo::ParseConfigFile`, lines 59-114) -/

/-- The C function `isspace` in the default locale: space, `\t`, `\n`, `\v`, `\f`, `\r`. -/
def isspace (c : Char) : Bool :=
  c.toNat == 32 || (9 ≤ c.toNat && c.toNat ≤ 13)

/-- The lines read by the loop `while(getline(inFile,line))`: `cur` holds, reversed, the
characters of the line being read.  At the end of the file a last line without a newline
is still delivered, an empty rest is not. -/
def getlinesAux : List Char → List Char → List (List Char)
  | [], cur => if cur = [] then [] else [cur.reverse]
  | c :: cs, cur =>
    if c = Char.ofNat 10 then cur.reverse :: getlinesAux cs [] else getlinesAux cs (c :: cur)

/-- The lines `getline` delivers for a file with the given content. -/
def getlines (content : List Char) : List (List Char) :=
  getlinesAux content []

/-- Lines 77-81: remove the white space at the end of a line. -/
def rstrip (line : List Char) : List Char :=
  (line.reverse.dropWhile isspace).reverse

/-- Lines 70-88: the vector `lines`: the stripped lines that are not empty. -/
def configLines (content : List Char) : List (List Char) :=
  ((getlines content).map rstrip).filter fun line => line.length > 0

/-- `Kangaroo::ParseConfigFile`.  `file` is the content of the file, `none` when it cannot
be opened.  `SetBase16` (of `Int`) and `ParsePublicKeyHex` (of `Secp256K1`) are not among
the sources and are arguments: the latter returns its status and the value it leaves in
the point `p`. -/
def Kangaroo.ParseConfigFile {E : Type} (self : Kangaroo E) (SetBase16 : List Char → ℤ)
    (ParsePublicKeyHex : List Char → Bool × E) (file : Option (List Char)) :
    Bool × Kangaroo E :=
  match file with
  | none => (false, self)
  | some content =>
    let lines := configLines content
    if lines.length < 3 then
      (false, self)
    else
      let rangeStart := SetBase16 (lines.getD 0 [])
      let rangeEnd := SetBase16 (lines.getD 1 [])
      let keys := (lines.drop 2).map fun line => (ParsePublicKeyHex line).2
      (true, { self with rangeStart := rangeStart, rangeEnd := rangeEnd,
                         keysToSearch := self.keysToSearch ++ keys })

/-! ## Starting parameters (`Kangaroo::Run`, lines 580-586) -/

/-- Lines 584-585 of `Kangaroo::Run`: the jump modulus for a range power.  The division of
the `int` `rangePower` truncates. -/
def Kangaroo.jumpModuloFor (rangePower : ℤ) : ℤ :=
  let jumpModulo := rangePower.tdiv 2 + 1
  if jumpModulo > 128 then 128 else jumpModulo

/-- Lines 580-586 of `Kangaroo::Run`: half width, range power and jump modulus. -/
def Kangaroo.RunSetParams {E : Type} (self : Kangaroo E) : Kangaroo E :=
  let rangeHalfWidth := self.rangeEnd - self.rangeStart
  let rangePower := Int.GetBitLength rangeHalfWidth
  let jumpModulo := Kangaroo.jumpModuloFor rangePower
  let rangeHalfWidth := Int.ShiftR rangeHalfWidth 1
  { self with rangeHalfWidth := rangeHalfWidth, rangePower := rangePower,
              jumpModulo := jumpModulo }

/-! ## The batched walk step (`Kangaroo::SolveKeyCPU`, lines 176-210) -/

/-- The jump index of lines 178 and 189: `pos.x.bits64[0] % jumpModulo`. -/
def Kangaroo.jmp {p : ℕ} (self : Kangaroo (Point p)) (K : KANGAROO (Point p)) : ℕ :=
  Int.bits64 K.pos.x 0 % self.jumpModulo.toNat

/-- First pass (lines 176-183): `dx[g] = herd[g]->pos.x - jumpPoint[jmp].x`. -/
def Kangaroo.stepDx {p : ℕ} (self : Kangaroo (Point p)) (herd : List (KANGAROO (Point p))) :
    List (ZMod p) :=
  herd.map fun K => K.pos.x - (self.jumpPoint (self.jmp K)).x

/-- Second pass (lines 187-210) for one kangaroo, `inv` being the content of `dx[g]` after
`grp->ModInv()`. -/
def Kangaroo.stepOne {p : ℕ} (self : Kangaroo (Point p)) (K : KANGAROO (Point p))
    (inv : ZMod p) : KANGAROO (Point p) :=
  let jmp := self.jmp K
  let p1x := (self.jumpPoint jmp).x
  let p1y := (self.jumpPoint jmp).y
  let p2x := K.pos.x
  let p2y := K.pos.y
  let dy := p2y - p1y
  let _s := dy * inv
  let _p := _s * _s
  let rx := _p - p1x
  let rx := rx - p2x
  let ry := p2x - rx
  let ry := ry * _s
  let ry := ry - p2y
  { pos := { x := rx, y := ry },
    distance := Int.ModAddK1order self.secp.order K.distance (self.jumpDistance jmp),
    type := K.type }

/-- One batched step of the herd (lines 176-210).  `ModInv` is `IntGroup::ModInv`, the
batch inversion of the SECPK1 library, which is not among the sources. -/
def Kangaroo.step {p : ℕ} (self : Kangaroo (Point p)) (ModInv : List (ZMod p) → List (ZMod p))
    (herd : List (KANGAROO (Point p))) : List (KANGAROO (Point p)) :=
  List.zipWith self.stepOne herd (ModInv (self.stepDx herd))

/-- The curve `y² = x³ + 7` over the field `ZMod p`. -/
def secpCurve (p : ℕ) : WeierstrassCurve.Affine (ZMod p) :=
  { a₁ := 0, a₂ := 0, a₃ := 0, a₄ := 0, a₆ := 7 }

/-- Invariant I1 for a kangaroo in affine coordinates: its position is a point of the
curve and equals `(rangeStart + distance)·G` for a Tame, `Q + distance·G` for a Wild. -/
def I1 {p : ℕ} [Fact p.Prime] (G Q : (secpCurve p).Point) (rangeStart : ℤ)
    (K : KANGAROO (Point p)) : Prop :=
  ∃ h : (secpCurve p).Nonsingular K.pos.x K.pos.y,
    WeierstrassCurve.Affine.Point.some h =
      if K.type = TAME then (rangeStart + K.distance) • G else Q + K.distance • G

/-! ## The jump table (constructor `Kangaroo::Kangaroo`, lines 40-46) -/

/-- The loop of lines 43-46 after its iterations `i = 1, ..., k`.  `DoubleDirect` (of
`Secp256K1`) is not among the sources and is an argument; `Int::Add` is the integer sum. -/
def Kangaroo.jumpLoop {E : Type} (DoubleDirect : E → E) : ℕ → Kangaroo E → Kangaroo E
  | 0, self => self
  | i + 1, self =>
    let st := Kangaroo.jumpLoop DoubleDirect i self
    { st with
        jumpDistance :=
          Function.update st.jumpDistance (i + 1) (st.jumpDistance i + st.jumpDistance i),
        jumpPoint := Function.update st.jumpPoint (i + 1) (DoubleDirect (st.jumpPoint i)) }

/-- Lines 40-46 of the constructor: entry `0` of the jump table, then the loop
`for(int i = 1; i < 129; ++i)`. -/
def Kangaroo.initJumps {E : Type} (self : Kangaroo E) (DoubleDirect : E → E) : Kangaroo E :=
  Kangaroo.jumpLoop DoubleDirect 128
    { self with jumpPoint := Function.update self.jumpPoint 0 self.secp.G,
                jumpDistance := Function.update self.jumpDistance 0 1 }

/-! ## Distinguished bits calibration (`Kangaroo::Run`, lines 598-605) -/

/-- Lines 598-605 of `Kangaroo::Run`, for the value `optimalDP` of lines 594-595 (the
warning of lines 598-601 only prints). -/
def Kangaroo.RunSetDP {E : Type} (self : Kangaroo E) (optimalDP : ℤ) : Kangaroo E :=
  let initDPSize := if self.initDPSize < 0 then optimalDP else self.initDPSize
  ({ self with initDPSize := initDPSize }).SetDP initDPSize

/-! ## The walk of one kangaroo -/

/-- One step of a kangaroo whose `dx` is inverted exactly: `stepOne` with the inverse of
`pos.x - jumpPoint[jmp].x` in `ZMod p`. -/
def Kangaroo.stepExact {p : ℕ} (self : Kangaroo (Point p)) (K : KANGAROO (Point p)) :
    KANGAROO (Point p) :=
  self.stepOne K (K.pos.x - (self.jumpPoint (self.jmp K)).x)⁻¹

/-! ## Processing of distinguished points (`SolveKeyCPU` lines 212-277, `SolveKeyGPU`
lines 386-456) -/

/-- The herd size `CPU_GRP_SIZE` of `Kangaroo.h` (the spec: 128 kangaroos per herd). -/
def CPU_GRP_SIZE : ℕ := 128

/-- Limb `i` of a 256-bit integer given as a natural number. -/
def natBits64 (x i : ℕ) : ℕ := x / 2 ^ (64 * i) % 2 ^ 64

/-- The state a worker's loop over distinguished points acts on: the solver, the herd
(for the GPU, the kangaroos on the device), the hash table, and the number of calls of
`hashTable.Add` made so far. -/
structure Worker (E H : Type) where
  /-- the solver object -/
  solver : Kangaroo E
  /-- the kangaroos of the worker -/
  herd : List (KANGAROO E)
  /-- the hash table (shared, under the mutex) -/
  table : H
  /-- number of calls of `hashTable.Add` -/
  addCalls : ℕ

/-- An item returned by `GPUEngine::Launch` (`GPUEngine.h`). -/
structure ITEM where
  /-- abscissa of the distinguished point -/
  x : ℕ
  /-- distance of the kangaroo -/
  d : ℤ
  /-- index of the kangaroo -/
  kIdx : ℕ

/-- Herd creation (`SolveKeyCPU`, lines 154-156): `herd[j] = Create(j%2)`, with `rand j` the
draw of kangaroo `j`. -/
def Kangaroo.createHerd {E : Type} [AddCommGroup E] (self : Kangaroo E) (rand : ℕ → ℤ) :
    List (KANGAROO E) :=
  (List.range CPU_GRP_SIZE).map fun j => self.Create (j % 2) (rand j)

/-- The body of the loop of lines 212-277 for slot `g`.  `HashTable` is not among the
sources: `Add table x d type` is the call `hashTable.Add(&x,&d,type)`, returning the new
table and, when it signals a match, `(GetType(), GetD())`.  `xOf` gives the abscissa of a
point as a number and `rand g` is the draw of a respawn at slot `g`. -/
def Kangaroo.dpStepCPU {E H : Type} [AddCommGroup E] [DecidableEq E]
    (Add : H → ℕ → ℤ → ℕ → H × Option (ℕ × ℤ)) (xOf : E → ℕ) (rand : ℕ → ℤ)
    (w : Worker E H) (g : ℕ) : Worker E H :=
  match w.herd[g]? with
  | none => w
  | some K =>
    if w.solver.IsDP (natBits64 (xOf K.pos) 3) then
      if !w.solver.endOfSearch then
        match Add w.table (xOf K.pos) K.distance K.type with
        | (table, none) => { w with table := table, addCalls := w.addCalls + 1 }
        | (table, some (type, d)) =>
          { solver := (w.solver.matchCPU K type d (rand g)).1,
            herd := w.herd.set g (w.solver.matchCPU K type d (rand g)).2,
            table := table,
            addCalls := w.addCalls + 1 }
      else w
    else w

/-- The loop of lines 212-277: slots `0, ..., CPU_GRP_SIZE - 1` in order. -/
def Kangaroo.dpLoopCPU {E H : Type} [AddCommGroup E] [DecidableEq E]
    (Add : H → ℕ → ℤ → ℕ → H × Option (ℕ × ℤ)) (xOf : E → ℕ) (rand : ℕ → ℤ)
    (w : Worker E H) : Worker E H :=
  (List.range CPU_GRP_SIZE).foldl (Kangaroo.dpStepCPU Add xOf rand) w

/-- The body of the loop of lines 390-454 for the item `item` at position `g` of
`gpuFound`; `gpu->SetKangaroo(kIdx, ...)` writes kangaroo `kIdx` of the device. -/
def Kangaroo.dpStepGPU {E H : Type} [AddCommGroup E] [DecidableEq E]
    (Add : H → ℕ → ℤ → ℕ → H × Option (ℕ × ℤ)) (rand : ℕ → ℤ)
    (w : Worker E H) (g : ℕ) (item : ITEM) : Worker E H :=
  let kType := item.kIdx % 2
  match Add w.table item.x item.d kType with
  | (table, none) => { w with table := table, addCalls := w.addCalls + 1 }
  | (table, some (type, d)) =>
    { solver := (w.solver.matchGPU item.kIdx item.d type d (rand g)).1,
      herd :=
        match (w.solver.matchGPU item.kIdx item.d type d (rand g)).2 with
        | some K => w.herd.set item.kIdx K
        | none => w.herd,
      table := table,
      addCalls := w.addCalls + 1 }

/-- The loop `for(int g=0;!endOfSearch && g<gpuFound.size();g++)` of lines 390-454, from
position `g` on, `items` being the items not yet visited. -/
def Kangaroo.dpLoopGPU {E H : Type} [AddCommGroup E] [DecidableEq E]
    (Add : H → ℕ → ℤ → ℕ → H × Option (ℕ × ℤ)) (rand : ℕ → ℤ) :
    Worker E H → ℕ → List ITEM → Worker E H
  | w, _, [] => w
  | w, g, item :: items =>
    if w.solver.endOfSearch then w
    else Kangaroo.dpLoopGPU Add rand (Kangaroo.dpStepGPU Add rand w g item) (g + 1) items

/-- The herd layout: the kangaroo at slot `g` is Tame for an even `g`, Wild for an odd
one. -/
def herdLayout {E : Type} (herd : List (KANGAROO E)) : Prop :=
  ∀ (g : ℕ) (K : KANGAROO E), herd[g]? = some K → K.type = g % 2

/-! ## Optimal number of distinguished bits (`Kangaroo::Run`, lines 594-595) -/

/-- The integer part of lines 594-595 of `Kangaroo::Run`: `x` is the value of the `double`
expression `(double)rangePower / 2.0 - log2((double)totalRW) - 2` (a finite `double` is a
rational number); the cast `(int)` truncates toward zero, and a negative result is
replaced by `0`.  The floating-point evaluation of the expression itself is not
modelled. -/
def Kangaroo.optimalDPOfValue (x : ℚ) : ℤ :=
  let optimalDP := x.num.tdiv x.den
  if optimalDP < 0 then 0 else optimalDP

/-! ## Toy instances used to exercise the statements -/

/-- A solver over the cyclic group `ZMod 7` (generator `1`, order `7`) searching the
key `Q` from `rangeStart = 2`. -/
def toySolver (Q : ZMod 7) : Kangaroo (ZMod 7) :=
  { secp := { G := 1, order := 7 }, rangeStart := 2, rangeEnd := 6, rangeHalfWidth := 2,
    rangePower := 3, jumpModulo := 2, dMask := 0, dpSize := 0, initDPSize := 0,
    keyToSearch := Q, keysToSearch := [], endOfSearch := false, collisionInSameHerd := 0,
    stdout := [], jumpPoint := fun i => 2 ^ i, jumpDistance := fun i => 2 ^ i }

/-- A parser that rejects every line and leaves the point `0`. -/
def toyRejectAll (_line : List Char) : Bool × ZMod 7 := (false, 0)

/-- A parser that accepts every line and delivers the point `1`. -/
def toyAcceptAll (_line : List Char) : Bool × ZMod 7 := (true, 1)

/-- A stand-in for `SetBase16`: the number of characters of the line. -/
def toySetBase16 (line : List Char) : ℤ := line.length

/-- The file `0⏎FF⏎zz⏎`: a range and one key line that is no public key. -/
def fileBadKey : List Char :=
  ['0', Char.ofNat 10, 'F', 'F', Char.ofNat 10, 'z', 'z', Char.ofNat 10]

/-- The file `1⏎⏎2`: three lines separated by newlines, the second one blank. -/
def fileBlankLine : List Char :=
  ['1', Char.ofNat 10, Char.ofNat 10, '2']

/-- The number 13 is prime: `ZMod 13` is a field. -/
instance fact13 : Fact (Nat.Prime 13) := ⟨by norm_num⟩

/-- A solver on the curve `y² = x³ + 7` over `ZMod 13`, whose point group is cyclic of order
`7`, generated by `G = (7, 5)`.  The target is `Q = (8, 5) = 2·G`; the jump table holds
`G` with distance `1` and `2·G` with distance `2`; the jump modulus is `2`. -/
def toyWalker : Kangaroo (Point 13) :=
  { secp := { G := { x := 7, y := 5 }, order := 7 }, rangeStart := 1, rangeEnd := 5,
    rangeHalfWidth := 2, rangePower := 3, jumpModulo := 2, dMask := 0, dpSize := 0,
    initDPSize := 0, keyToSearch := { x := 8, y := 5 }, keysToSearch := [],
    endOfSearch := false, collisionInSameHerd := 0, stdout := [],
    jumpPoint := fun i => if i = 0 then { x := 7, y := 5 } else { x := 8, y := 5 },
    jumpDistance := fun i => 2 ^ i }

/-- A Wild kangaroo of `toyWalker` standing on the target `Q` with distance `0`. -/
def toyWild : KANGAROO (Point 13) :=
  { pos := { x := 8, y := 5 }, distance := 0, type := WILD }

/-- A batch inversion that inverts every element. -/
def toyModInv (dx : List (ZMod 13)) : List (ZMod 13) := dx.map fun a => a⁻¹

/-- The doubling of the cyclic group `ZMod 7`. -/
def toyDouble (P : ZMod 7) : ZMod 7 := P + P

/-- A Tame kangaroo of `toyWalker` standing on `(8, 8) = -Q = 5·G` with distance `4`. -/
def toyTame : KANGAROO (Point 13) :=
  { pos := { x := 8, y := 8 }, distance := 4, type := TAME }

/-- A hash table without state whose `Add` always signals a match with a stored Tame row
of distance `4`. -/
def toyAddTame (_t : Unit) (_x : ℕ) (_d : ℤ) (_type : ℕ) : Unit × Option (ℕ × ℤ) :=
  ((), some (TAME, 4))

/-- A hash table without state whose `Add` always signals a match with a stored Wild row
of distance `4`. -/
def toyAddWild (_t : Unit) (_x : ℕ) (_d : ℤ) (_type : ℕ) : Unit × Option (ℕ × ℤ) :=
  ((), some (WILD, 4))

/-- The abscissa of a point of the toy group `ZMod 7`: its representative. -/
def toyXOf (P : ZMod 7) : ℕ := P.val

/-- Random draws that are always `1`. -/
def toyRand (_g : ℕ) : ℤ := 1

/-- A worker of the toy solver with target `Q` and a herd of two kangaroos: a Tame one with
distance `5` at slot `0` and a Wild one with distance `4` at slot `1`.  The mask is `0`,
so every point is distinguished. -/
def toyWorker (Q : ZMod 7) : Worker (ZMod 7) Unit :=
  { solver := toySolver Q,
    herd := [{ pos := 0, distance := 5, type := TAME },
             { pos := Q + 4, distance := 4, type := WILD }],
    table := (),
    addCalls := 0 }

/-- The tangent formulas for the double of an affine point of the toy curve. -/
def toyDoubleDirect (P : Point 13) : Point 13 :=
  let s := 3 * P.x * P.x * (2 * P.y)⁻¹
  let rx := s * s - P.x - P.x
  { x := rx, y := s * (P.x - rx) - P.y }

/-! # Properties -/

/-! ## Scalar arithmetic modulo the group order -/

section Scalars

variable {E : Type} [AddCommGroup E]

/-- Reducing a scalar modulo the order does not change the multiple of `G`. -/
theorem emod_order_zsmul (G : E) (n : ℤ) (hn : n • G = 0) (a : ℤ) : (a % n) • G = a • G := by
  conv_rhs => rw [← Int.emod_add_ediv a n]
  rw [add_smul, mul_comm, mul_smul, hn, smul_zero, add_zero]

/-- The candidate key is `rangeStart + t - w` up to the order, for a Tame reporter. -/
theorem candidate_tame_zsmul (self : Kangaroo E) (hn : self.secp.order • self.secp.G = 0)
    (t w : ℤ) :
    (self.candidate TAME t w) • self.secp.G = (self.rangeStart + t - w) • self.secp.G := by
  simp only [Kangaroo.candidate, if_true, Int.ModSubK1order, Int.ModAddK1order]
  rw [emod_order_zsmul _ _ hn, sub_smul, emod_order_zsmul _ _ hn, ← sub_smul]

/-- The candidate key is `rangeStart + t - w` up to the order, for a Wild reporter. -/
theorem candidate_wild_zsmul (self : Kangaroo E) (hn : self.secp.order • self.secp.G = 0)
    (t w : ℤ) :
    (self.candidate WILD w t) • self.secp.G = (self.rangeStart + t - w) • self.secp.G := by
  have h : WILD ≠ TAME := by decide
  simp only [Kangaroo.candidate, if_neg h, Int.ModSubK1order, Int.ModAddK1order]
  rw [emod_order_zsmul _ _ hn, sub_smul, emod_order_zsmul _ _ hn, ← sub_smul]

/-- The second candidate `n - k` is the opposite multiple of `G`. -/
theorem neg_add_order_zsmul (G : E) (n : ℤ) (hn : n • G = 0) (a : ℤ) :
    (-a + n) • G = -(a • G) := by
  rw [add_smul, hn, add_zero, neg_smul]

/-- The candidate key of a cross-herd match is `rangeStart + t - w` up to the order, in
either reporting order. -/
theorem candidate_zsmul (self : Kangaroo E) (hn : self.secp.order • self.secp.G = 0)
    (K : KANGAROO E) (type : ℕ) (d t w : ℤ)
    (hrep : (K.type = TAME ∧ type = WILD ∧ K.distance = t ∧ d = w) ∨
            (K.type = WILD ∧ type = TAME ∧ K.distance = w ∧ d = t)) :
    (self.candidate K.type K.distance d) • self.secp.G
      = (self.rangeStart + t - w) • self.secp.G := by
  rcases hrep with ⟨hK, -, hd, hw⟩ | ⟨hK, -, hd, hw⟩
  · rw [hK, hd, hw]; exact candidate_tame_zsmul self hn t w
  · rw [hK, hd, hw]; exact candidate_wild_zsmul self hn t w

end Scalars

/-- The value of the candidate key: `(rangeStart + t - w) mod n` in either reporting
order. -/
theorem candidate_eq {E : Type} (self : Kangaroo E) (K : KANGAROO E) (type : ℕ) (d t w : ℤ)
    (hrep : (K.type = TAME ∧ type = WILD ∧ K.distance = t ∧ d = w) ∨
            (K.type = WILD ∧ type = TAME ∧ K.distance = w ∧ d = t)) :
    self.candidate K.type K.distance d = (self.rangeStart + t - w) % self.secp.order := by
  have h : WILD ≠ TAME := by decide
  rcases hrep with ⟨hK, -, hd, hw⟩ | ⟨hK, -, hd, hw⟩
  · rw [hK, hd, hw]
    simp only [Kangaroo.candidate, if_true, Int.ModSubK1order, Int.ModAddK1order]
    rw [Int.sub_emod, Int.emod_emod, ← Int.sub_emod]
  · rw [hK, hd, hw]
    simp only [Kangaroo.candidate, if_neg h, Int.ModSubK1order, Int.ModAddK1order]
    rw [Int.sub_emod, Int.emod_emod, ← Int.sub_emod]

/-! ## The collision resolver -/

section Resolver

variable {E : Type} [AddCommGroup E] [DecidableEq E]

/-- The solver after a cross-herd match on the CPU, in terms of the candidate key. -/
theorem matchCPU_cross (self : Kangaroo E) (K : KANGAROO E) (type : ℕ) (d r : ℤ)
    (hne : type ≠ K.type) :
    (self.matchCPU K type d r).1 =
      if (self.candidate K.type K.distance d) • self.secp.G = self.keyToSearch then
        { self with stdout := self.stdout ++ [self.candidate K.type K.distance d],
                    endOfSearch := true }
      else if (-(self.candidate K.type K.distance d) + self.secp.order) • self.secp.G
          = self.keyToSearch then
        { self with
            stdout := self.stdout ++ [-(self.candidate K.type K.distance d) + self.secp.order],
            endOfSearch := true }
      else self := by
  simp only [Kangaroo.matchCPU, if_neg hne, Secp256K1.ComputePublicKey]
  split_ifs <;> rfl

/-- The solver after a cross-herd match on the GPU, in terms of the candidate key. -/
theorem matchGPU_cross (self : Kangaroo E) (kIdx : ℕ) (itemD : ℤ) (type : ℕ) (d r : ℤ)
    (hne : type ≠ kIdx % 2) :
    (self.matchGPU kIdx itemD type d r).1 =
      if (self.candidate (kIdx % 2) itemD d) • self.secp.G = self.keyToSearch then
        { self with stdout := self.stdout ++ [self.candidate (kIdx % 2) itemD d],
                    endOfSearch := true }
      else if (-(self.candidate (kIdx % 2) itemD d) + self.secp.order) • self.secp.G
          = self.keyToSearch then
        { self with
            stdout := self.stdout ++ [-(self.candidate (kIdx % 2) itemD d) + self.secp.order],
            endOfSearch := true }
      else self := by
  simp only [Kangaroo.matchGPU, if_neg hne, Secp256K1.ComputePublicKey]
  split_ifs <;> rfl

/-- On a cross-herd match the GPU handler leaves the solver as the CPU handler does. -/
theorem matchGPU_cross_eq_matchCPU (self : Kangaroo E) (K : KANGAROO E) (kIdx type : ℕ)
    (d r : ℤ) (hk : kIdx % 2 = K.type) (hne : type ≠ K.type) :
    (self.matchGPU kIdx K.distance type d r).1 = (self.matchCPU K type d r).1 := by
  rw [matchCPU_cross self K type d r hne, matchGPU_cross self kIdx K.distance type d r
    (hk ▸ hne), hk]

/-- C1 (resolver correctness, P5).  On a cross-herd match with Tame distance `t` and Wild
distance `w`, in either reporting order and in both `SolveKeyCPU` and `SolveKeyGPU`: the
resolver sets `endOfSearch` and prints a key `k` with `k·G = Q` exactly when
`(rangeStart + t - w)·G = Q` or `-(rangeStart + t - w)·G = Q`; the key printed is the first
candidate `(rangeStart + t - w) mod n` when that one matches, else the second candidate
`n - k`; in every other case nothing is printed and `endOfSearch` stays false. -/
theorem resolver_correct (self : Kangaroo E) (hn : self.secp.order • self.secp.G = 0)
    (hend : self.endOfSearch = false) (K : KANGAROO E) (kIdx type : ℕ) (d r t w : ℤ)
    (hk : kIdx % 2 = K.type)
    (hrep : (K.type = TAME ∧ type = WILD ∧ K.distance = t ∧ d = w) ∨
            (K.type = WILD ∧ type = TAME ∧ K.distance = w ∧ d = t)) :
    ∀ st', st' = (self.matchCPU K type d r).1 ∨
        st' = (self.matchGPU kIdx K.distance type d r).1 →
      ((st'.endOfSearch = true ∧
          ∃ k, st'.stdout = self.stdout ++ [k] ∧ k • self.secp.G = self.keyToSearch) ↔
        ((self.rangeStart + t - w) • self.secp.G = self.keyToSearch ∨
          -((self.rangeStart + t - w) • self.secp.G) = self.keyToSearch)) ∧
      (((self.rangeStart + t - w) % self.secp.order) • self.secp.G = self.keyToSearch →
        st'.endOfSearch = true ∧
        st'.stdout = self.stdout ++ [(self.rangeStart + t - w) % self.secp.order]) ∧
      (((self.rangeStart + t - w) % self.secp.order) • self.secp.G ≠ self.keyToSearch →
        (self.secp.order - (self.rangeStart + t - w) % self.secp.order) • self.secp.G
          = self.keyToSearch →
        st'.endOfSearch = true ∧
        st'.stdout = self.stdout ++
          [self.secp.order - (self.rangeStart + t - w) % self.secp.order]) ∧
      (¬ ((self.rangeStart + t - w) • self.secp.G = self.keyToSearch ∨
          -((self.rangeStart + t - w) • self.secp.G) = self.keyToSearch) →
        st'.endOfSearch = false ∧ st'.stdout = self.stdout) := by
  have hne : type ≠ K.type := by
    rcases hrep with ⟨h1, h2, -, -⟩ | ⟨h1, h2, -, -⟩ <;> rw [h1, h2] <;> decide
  have hc := candidate_eq self K type d t w hrep
  have h1 := candidate_zsmul self hn K type d t w hrep
  have h2 := neg_add_order_zsmul self.secp.G self.secp.order hn
    (self.candidate K.type K.distance d)
  have hsub : self.secp.order - (self.rangeStart + t - w) % self.secp.order
      = -(self.candidate K.type K.distance d) + self.secp.order := by rw [hc]; ring
  intro st' hst
  have hst' : st' = (self.matchCPU K type d r).1 := by
    rcases hst with h | h
    · exact h
    · rw [h]; exact matchGPU_cross_eq_matchCPU self K kIdx type d r hk hne
  rw [hst', matchCPU_cross self K type d r hne, hsub, ← hc, h2, h1]
  by_cases hA : (self.rangeStart + t - w) • self.secp.G = self.keyToSearch
  · rw [if_pos hA]
    refine ⟨⟨fun _ => Or.inl hA, fun _ => ⟨rfl, _, rfl, ?_⟩⟩, fun _ => ⟨rfl, rfl⟩,
      fun h => absurd hA h, fun h => absurd (Or.inl hA) h⟩
    rw [h1]; exact hA
  · rw [if_neg hA]
    by_cases hB : -((self.rangeStart + t - w) • self.secp.G) = self.keyToSearch
    · rw [if_pos hB]
      refine ⟨⟨fun _ => Or.inr hB, fun _ => ⟨rfl, _, rfl, ?_⟩⟩, fun h => absurd h hA,
        fun _ _ => ⟨rfl, rfl⟩, fun h => absurd (Or.inr hB) h⟩
      rw [h2, h1]; exact hB
    · rw [if_neg hB]
      refine ⟨⟨fun h => ?_, fun h => ?_⟩, fun h => absurd h hA, fun _ h => absurd h hB,
        fun _ => ⟨hend, rfl⟩⟩
      · rw [hend] at h; exact absurd h.1 (by decide)
      · rcases h with h | h
        · exact absurd h hA
        · exact absurd h hB

end Resolver

/-- Witness of C1 on the cyclic group `ZMod 7` with `rangeStart = 2`, `t = 5`, `w = 4`
and `Q = 3·G`: the Tame kangaroo reports, the key `3` is printed. -/
theorem resolver_correct_witness :
    (toySolver 3).secp.order • (toySolver 3).secp.G = 0 ∧
    ((toySolver 3).matchCPU { pos := 0, distance := 5, type := TAME } WILD 4 0).1.endOfSearch
      = true ∧
    ((toySolver 3).matchCPU { pos := 0, distance := 5, type := TAME } WILD 4 0).1.stdout
      = [] ++ [(2 + 5 - 4) % 7] :=
  ⟨by decide,
   ((resolver_correct (toySolver 3) (by decide) rfl { pos := 0, distance := 5, type := TAME }
      0 WILD 4 0 5 4 (by decide) (Or.inl ⟨rfl, rfl, rfl, rfl⟩) _ (Or.inl rfl)).2.1
      (by decide))⟩

/-! ## Rendezvous -/

section Rendezvous

variable {E : Type} [AddCommGroup E] [DecidableEq E]

/-- C2 (rendezvous recovers the key).  A Tame kangaroo at `(rangeStart + d_tame)·G` and a
Wild kangaroo at `Q + d_wild·G` that stand on the same point: the first candidate
`k = (rangeStart + d_tame - d_wild) mod n` satisfies `k·G = Q`, and the resolver, whichever
of the two reports, sets `endOfSearch` and prints `k`. -/
theorem rendezvous_recovers_key (self : Kangaroo E)
    (hn : self.secp.order • self.secp.G = 0) (T Wd : KANGAROO E) (r : ℤ)
    (hT : T.type = TAME) (hW : Wd.type = WILD)
    (hTpos : T.pos = (self.rangeStart + T.distance) • self.secp.G)
    (hWpos : Wd.pos = self.keyToSearch + Wd.distance • self.secp.G)
    (hsame : T.pos = Wd.pos) :
    ((self.rangeStart + T.distance - Wd.distance) % self.secp.order) • self.secp.G
      = self.keyToSearch ∧
    (self.matchCPU T Wd.type Wd.distance r).1 =
      { self with
          stdout := self.stdout ++
            [(self.rangeStart + T.distance - Wd.distance) % self.secp.order],
          endOfSearch := true } ∧
    (self.matchCPU Wd T.type T.distance r).1 =
      { self with
          stdout := self.stdout ++
            [(self.rangeStart + T.distance - Wd.distance) % self.secp.order],
          endOfSearch := true } := by
  have hkey : (self.rangeStart + T.distance - Wd.distance) • self.secp.G
      = self.keyToSearch := by
    rw [sub_smul, ← hTpos, hsame, hWpos, add_sub_cancel_right]
  have hTW : Wd.type ≠ T.type := by rw [hT, hW]; decide
  have hWT : T.type ≠ Wd.type := fun h => hTW h.symm
  have c1 := candidate_eq self T Wd.type Wd.distance T.distance Wd.distance
    (Or.inl ⟨hT, hW, rfl, rfl⟩)
  have c2 := candidate_eq self Wd T.type T.distance T.distance Wd.distance
    (Or.inr ⟨hW, hT, rfl, rfl⟩)
  have hk := emod_order_zsmul self.secp.G self.secp.order hn
    (self.rangeStart + T.distance - Wd.distance)
  refine ⟨hk.trans hkey, ?_, ?_⟩
  · rw [matchCPU_cross self T Wd.type Wd.distance r hTW, c1, if_pos (hk.trans hkey)]
  · rw [matchCPU_cross self Wd T.type T.distance r hWT, c2, if_pos (hk.trans hkey)]

/-- Witness of C2 on `ZMod 7`: `rangeStart = 2`, Tame distance `5`, Wild distance `4`,
`Q = 3`; both kangaroos stand on `0 = 7·G`. -/
theorem rendezvous_recovers_key_witness :
    ((2 + 5 - 4 : ℤ) % 7) • (1 : ZMod 7) = 3 ∧
    ((toySolver 3).matchCPU { pos := 0, distance := 5, type := TAME } WILD 4 0).1 =
      { toySolver 3 with stdout := [] ++ [(2 + 5 - 4) % 7], endOfSearch := true } ∧
    ((toySolver 3).matchCPU { pos := 0, distance := 4, type := WILD } TAME 5 0).1 =
      { toySolver 3 with stdout := [] ++ [(2 + 5 - 4) % 7], endOfSearch := true } :=
  rendezvous_recovers_key (toySolver 3) (by decide)
    { pos := 0, distance := 5, type := TAME } { pos := 0, distance := 4, type := WILD } 0
    rfl rfl (by decide) (by decide) rfl

end Rendezvous

/-! ## Kangaroo creation -/

/-- The bounds on the shifted draw that C4 assumes hold for the parameters `Run` computes
from any interval `0 ≤ rangeStart ≤ rangeEnd < n`, as soon as the order satisfies
`3·2^254 ≤ n < 2^256` (the order of secp256k1 does). -/
theorem RunSetParams_shift_bounds {E : Type} (self : Kangaroo E)
    (h0 : 0 ≤ self.rangeStart) (hle : self.rangeStart ≤ self.rangeEnd)
    (hlt : self.rangeEnd < self.secp.order)
    (hn1 : 3 * 2 ^ 254 ≤ self.secp.order) (hn2 : self.secp.order < 2 ^ 256) :
    self.RunSetParams.secp.order = self.secp.order ∧
    self.RunSetParams.rangeHalfWidth ≤ self.secp.order ∧
    2 ^ self.RunSetParams.rangePower.toNat
      ≤ self.secp.order + self.RunSetParams.rangeHalfWidth := by
  have hrp : self.RunSetParams.rangePower
      = (Nat.size (self.rangeEnd - self.rangeStart).natAbs : ℤ) := rfl
  have hhw : self.RunSetParams.rangeHalfWidth = (self.rangeEnd - self.rangeStart) / 2 ^ 1 :=
    rfl
  rw [hrp, hhw, Int.toNat_ofNat]
  obtain ⟨w, hw⟩ : ∃ w : ℕ, self.rangeEnd - self.rangeStart = (w : ℤ) :=
    ⟨(self.rangeEnd - self.rangeStart).toNat, by omega⟩
  rw [hw, Int.natAbs_ofNat]
  have hwn : (w : ℤ) < self.secp.order := by omega
  have hw256 : w < 2 ^ 256 := by
    have : (w : ℤ) < 2 ^ 256 := lt_trans hwn hn2
    exact_mod_cast this
  have hs : Nat.size w ≤ 256 := Nat.size_le.mpr hw256
  have hhalf : (0 : ℤ) ≤ (w : ℤ) / 2 ^ 1 := Int.ediv_nonneg (by omega) (by norm_num)
  refine ⟨rfl, by omega, ?_⟩
  rcases Nat.lt_or_ge (Nat.size w) 256 with hlt' | hge
  · have h1 : (2 : ℤ) ^ Nat.size w ≤ 2 ^ 255 :=
      pow_le_pow_right₀ (by norm_num) (by omega)
    omega
  · have h256 : Nat.size w = 256 := le_antisymm hs hge
    have h255 : 2 ^ 255 ≤ w := Nat.lt_size.mp (by omega)
    rw [h256]
    omega

section Creation

variable {E : Type} [AddCommGroup E]

/-- The Wild shift of `Create`: subtract the half width and add the order when the result
is negative.  When the shifted draw lies in `[-n, n)` this is the residue modulo `n`. -/
theorem wild_shift_eq_emod (n hw r : ℤ) (hr0 : 0 ≤ r) (hlo : hw ≤ n) (hhi : r < n + hw) :
    (if Int.IsNegative (r - hw) then r - hw + n else r - hw) = (r - hw) % n := by
  unfold Int.IsNegative
  by_cases h : r - hw < 0
  · rw [decide_eq_true h, if_pos rfl]
    have h1 : 0 ≤ r - hw + n := by linarith
    have h2 : r - hw + n < n := by linarith
    rw [← Int.add_emod_self, Int.emod_eq_of_lt h1 h2]
  · rw [decide_eq_false h, if_neg (by decide)]
    have h1 : 0 ≤ r - hw := by linarith
    have h2 : r - hw < n := by linarith
    rw [Int.emod_eq_of_lt h1 h2]

/-- C4 (creation establishes I1).  For every draw `r` in `[0, 2^rangePower)`, the shifted
draw `r - rangeHalfWidth` lying in `[-n, n)` (as it does for every interval inside the
scalars): `Create(TAME)` returns a Tame kangaroo with `distance = r` and
`pos = (rangeStart + r)·G`; `Create(WILD)` returns a Wild kangaroo with
`distance = (r - rangeHalfWidth) mod n`, the order being added exactly when
`r - rangeHalfWidth` is negative, a non-negative distance, and `pos = Q + distance·G`.
The creation loop of `SolveKeyGPU` gives the same kangaroos for even and odd `j`. -/
theorem Create_establishes_I1 (self : Kangaroo E)
    (hn : self.secp.order • self.secp.G = 0) (r : ℤ) (j : ℕ)
    (hr0 : 0 ≤ r) (hr : r < 2 ^ self.rangePower.toNat)
    (hlo : self.rangeHalfWidth ≤ self.secp.order)
    (hhi : 2 ^ self.rangePower.toNat ≤ self.secp.order + self.rangeHalfWidth) :
    ((self.Create TAME r).type = TAME ∧
      (self.Create TAME r).distance = r ∧
      (self.Create TAME r).pos = (self.rangeStart + r) • self.secp.G) ∧
    ((self.Create WILD r).type = WILD ∧
      (self.Create WILD r).distance = (r - self.rangeHalfWidth) % self.secp.order ∧
      (self.Create WILD r).distance =
        (if r - self.rangeHalfWidth < 0 then r - self.rangeHalfWidth + self.secp.order
         else r - self.rangeHalfWidth) ∧
      0 ≤ (self.Create WILD r).distance ∧
      (self.Create WILD r).pos
        = self.keyToSearch + (self.Create WILD r).distance • self.secp.G) ∧
    (self.CreateGPU (2 * j) r = self.Create TAME r ∧
      self.CreateGPU (2 * j + 1) r = self.Create WILD r) := by
  have hW : WILD ≠ TAME := by decide
  have hsh := wild_shift_eq_emod self.secp.order self.rangeHalfWidth r hr0 hlo
    (lt_of_lt_of_le hr hhi)
  have hpos : 0 < self.secp.order := by
    have : (0 : ℤ) < 2 ^ self.rangePower.toNat := by positivity
    by_contra hc
    have h1 : self.secp.order ≤ 0 := not_lt.mp hc
    linarith
  refine ⟨⟨?_, ?_, ?_⟩, ⟨?_, ?_, ?_, ?_, ?_⟩, ?_, ?_⟩
  · simp [Kangaroo.Create]
  · simp [Kangaroo.Create]
  · simp only [Kangaroo.Create, if_true, Secp256K1.ComputePublicKey, Int.ModAddK1order]
    rw [emod_order_zsmul _ _ hn, add_comm]
  · simp [Kangaroo.Create, hW]
  · simp only [Kangaroo.Create, if_neg hW]
    exact hsh
  · simp only [Kangaroo.Create, if_neg hW, Int.IsNegative, decide_eq_true_eq]
  · simp only [Kangaroo.Create, if_neg hW]
    rw [hsh]
    exact Int.emod_nonneg _ (ne_of_gt hpos)
  · simp only [Kangaroo.Create, if_neg hW, Secp256K1.ComputePublicKey, Secp256K1.AddDirect]
  · have h0 : 2 * j % 2 = TAME := by simp [TAME]
    simp only [Kangaroo.CreateGPU, Kangaroo.Create, h0, if_true, Secp256K1.ComputePublicKey,
      Secp256K1.AddDirect, Int.ModAddK1order]
    rw [if_neg (fun h => hW h.symm), emod_order_zsmul _ _ hn, add_smul,
      add_comm]
  · have h0 : (2 * j + 1) % 2 = WILD := by simp [WILD, Nat.add_mod]
    simp only [Kangaroo.CreateGPU, Kangaroo.Create, h0, if_true, if_neg hW,
      Secp256K1.ComputePublicKey, Secp256K1.AddDirect]

/-- Witness of C4 on `ZMod 7`: `rangeStart = 2`, `rangeHalfWidth = 2`, `rangePower = 3`,
draw `r = 1` (so the Wild distance is `1 - 2 + 7 = 6`). -/
theorem Create_establishes_I1_witness :
    ((toySolver 3).Create TAME 1).distance = 1 ∧
    ((toySolver 3).Create WILD 1).distance = (1 - 2) % 7 ∧
    ((toySolver 3).Create WILD 1).pos = 3 + ((toySolver 3).Create WILD 1).distance • 1 :=
  have h := Create_establishes_I1 (toySolver 3) (by decide) 1 0 (by decide) (by decide)
    (by decide) (by decide)
  ⟨h.1.2.1, h.2.1.2.1, h.2.1.2.2.2.2⟩

end Creation

/-! ## Distinguished points -/

/-- Bit `i` of the mask `2^64 - 2^k`: set exactly for `k ≤ i < 64`. -/
theorem topmask_testBit (k i : ℕ) (hk : k ≤ 64) :
    (2 ^ 64 - 2 ^ k).testBit i = (decide (k ≤ i) && decide (i < 64)) := by
  have h : 2 ^ 64 - 2 ^ k = (2 ^ (64 - k) - 1) <<< k := by
    rw [Nat.shiftLeft_eq, Nat.sub_mul, one_mul, ← pow_add, Nat.sub_add_cancel hk]
  rw [h, Nat.testBit_shiftLeft, Nat.testBit_two_pow_sub_one]
  by_cases h1 : k ≤ i
  · have : (i - k < 64 - k) ↔ i < 64 := by omega
    simp [h1, this]
  · simp [h1]

/-- A 64-bit word has no bit in common with the mask `2^64 - 2^k` exactly when it is
below `2^k`. -/
theorem and_topmask_eq_zero_iff (k x : ℕ) (hk : k ≤ 64) (hx : x < 2 ^ 64) :
    x &&& (2 ^ 64 - 2 ^ k) = 0 ↔ x < 2 ^ k := by
  constructor
  · intro h
    apply Nat.lt_pow_two_of_testBit
    intro i hi
    by_cases h64 : i < 64
    · have := congrArg (fun n => n.testBit i) h
      simp only [Nat.testBit_and, topmask_testBit k i hk, Nat.zero_testBit] at this
      simpa [hi, h64] using this
    · exact Nat.testBit_eq_false_of_lt
        (lt_of_lt_of_le hx (Nat.pow_le_pow_right (by norm_num) (not_lt.mp h64)))
  · intro h
    apply Nat.eq_of_testBit_eq
    intro i
    rw [Nat.testBit_and, topmask_testBit k i hk, Nat.zero_testBit]
    by_cases h1 : k ≤ i
    · rw [Nat.testBit_eq_false_of_lt
        (lt_of_lt_of_le h (Nat.pow_le_pow_right (by norm_num) h1))]
      rfl
    · simp [h1]

/-- The mask set by `SetDP(size)` for a non-negative `size`: the top `min(size, 64)` bits
of the 64-bit word. -/
theorem SetDP_dMask {E : Type} (self : Kangaroo E) (size : ℤ) (h0 : 0 ≤ size) :
    (self.SetDP size).dMask = 2 ^ 64 - 2 ^ (64 - min size 64).toNat := by
  by_cases hz : size = 0
  · subst hz
    simp [Kangaroo.SetDP]
  · have hk : (64 - min size 64).toNat ≤ 63 := by
      rcases le_total size 64 with h | h
      · rw [min_eq_left h]; omega
      · rw [min_eq_right h]; simp
    have hmin : (if size > 64 then 64 else size) = min size 64 := by
      rcases le_or_lt size 64 with h | h
      · rw [if_neg (not_lt.mpr h), min_eq_left h]
      · rw [if_pos h, min_eq_right h.le]
    simp only [Kangaroo.SetDP, if_neg hz, hmin]
    generalize (64 - min size 64).toNat = k at hk
    have h1 : 2 ^ k < 2 ^ 64 := Nat.pow_lt_pow_right (by norm_num) (by omega)
    have h2 : 1 ≤ 2 ^ k := Nat.one_le_two_pow
    rw [Nat.shiftLeft_eq, one_mul, Nat.mod_eq_of_lt h1]
    generalize 2 ^ k = a at h1 h2
    omega

/-- `IsDP` after `SetDP(size)`, for a non-negative `size`: the word is below
`2^(64 - min(size, 64))`. -/
theorem SetDP_IsDP_iff {E : Type} (self : Kangaroo E) (size : ℤ) (x : ℕ) (h0 : 0 ≤ size)
    (hx : x < 2 ^ 64) :
    (self.SetDP size).IsDP x = true ↔ x < 2 ^ (64 - min size 64).toNat := by
  have hk : (64 - min size 64).toNat ≤ 64 := by
    have : 0 ≤ min size 64 := le_min h0 (by norm_num)
    omega
  rw [Kangaroo.IsDP, SetDP_dMask self size h0, beq_iff_eq]
  exact and_topmask_eq_zero_iff _ x hk hx

/-- C5 (distinguished-point predicate).  For `size` in `[0, 64]` and a 64-bit word `x`:
after `SetDP(size)` the mask is `2^64 - 2^(64 - size)`, its set bits are exactly the top
`size` bits of the word, and `IsDP(x)` holds exactly when `x < 2^(64 - size)`. -/
theorem SetDP_IsDP {E : Type} (self : Kangaroo E) (size : ℤ) (x : ℕ)
    (h0 : 0 ≤ size) (h64 : size ≤ 64) (hx : x < 2 ^ 64) :
    (self.SetDP size).dMask = 2 ^ 64 - 2 ^ (64 - size).toNat ∧
    (∀ i : ℕ, (self.SetDP size).dMask.testBit i = true ↔ 64 - size.toNat ≤ i ∧ i < 64) ∧
    ((self.SetDP size).IsDP x = true ↔ x < 2 ^ (64 - size).toNat) := by
  have hm : min size 64 = size := min_eq_left h64
  have hd := SetDP_dMask self size h0
  have hi := SetDP_IsDP_iff self size x h0 hx
  rw [hm] at hd hi
  refine ⟨hd, fun i => ?_, hi⟩
  have hk : (64 - size).toNat ≤ 64 := by omega
  have hk2 : (64 - size).toNat = 64 - size.toNat := by omega
  rw [hd, topmask_testBit _ i hk, hk2]
  simp

/-- Witness of C5: `SetDP(8)` gives the mask `0xFF00000000000000`, and the word `2^55` is
distinguished. -/
theorem SetDP_IsDP_witness :
    ((toySolver 3).SetDP 8).dMask = 2 ^ 64 - 2 ^ (64 - (8 : ℤ)).toNat ∧
    (((toySolver 3).SetDP 8).IsDP (2 ^ 55) = true ↔ 2 ^ 55 < 2 ^ (64 - (8 : ℤ)).toNat) :=
  have h := SetDP_IsDP (toySolver 3) 8 (2 ^ 55) (by decide) (by decide) (by norm_num)
  ⟨h.1, h.2.2⟩

/-- C6 (P3).  For every non-negative `dpSize`: all `2^64` top words are distinguished
after `SetDP(dpSize)` exactly when `dpSize = 0`; `SetDP(0)` gives the mask `0`, for which
every word is distinguished; and for `dpSize ≥ 1` some top word is not distinguished. -/
theorem all_words_DP_iff {E : Type} (self : Kangaroo E) (dpSize : ℤ) (h0 : 0 ≤ dpSize) :
    ((∀ x : ℕ, x < 2 ^ 64 → (self.SetDP dpSize).IsDP x = true) ↔ dpSize = 0) ∧
    (self.SetDP 0).dMask = 0 ∧
    (∀ x : ℕ, (self.SetDP 0).IsDP x = true) ∧
    (1 ≤ dpSize → ∃ x : ℕ, x < 2 ^ 64 ∧ (self.SetDP dpSize).IsDP x = false) := by
  have hone : 1 ≤ dpSize → (self.SetDP dpSize).IsDP (2 ^ 63) = false := by
    intro h1
    have hx : (2 : ℕ) ^ 63 < 2 ^ 64 := by norm_num
    have hiff := SetDP_IsDP_iff self dpSize (2 ^ 63) h0 hx
    have hk : (64 - min dpSize 64).toNat ≤ 63 := by
      have : 1 ≤ min dpSize 64 := le_min h1 (by norm_num)
      omega
    have hnot : ¬ ((2 : ℕ) ^ 63 < 2 ^ (64 - min dpSize 64).toNat) :=
      not_lt.mpr (Nat.pow_le_pow_right (by norm_num) hk)
    cases hb : (self.SetDP dpSize).IsDP (2 ^ 63)
    · rfl
    · exact absurd (hiff.mp hb) hnot
  have hzero : ∀ x : ℕ, (self.SetDP 0).IsDP x = true := by
    intro x
    simp [Kangaroo.SetDP, Kangaroo.IsDP]
  refine ⟨⟨fun h => ?_, fun h => ?_⟩, by simp [Kangaroo.SetDP], hzero,
    fun h1 => ⟨2 ^ 63, by norm_num, hone h1⟩⟩
  · by_contra hne
    have h1 : 1 ≤ dpSize := by omega
    have := h (2 ^ 63) (by norm_num)
    rw [hone h1] at this
    exact absurd this (by decide)
  · intro x _
    rw [h]
    exact hzero x

/-- Witness of C6 for `dpSize = 3`: the word `2^63` is not distinguished. -/
theorem all_words_DP_iff_witness :
    ((∀ x : ℕ, x < 2 ^ 64 → ((toySolver 3).SetDP 3).IsDP x = true) ↔ (3 : ℤ) = 0) ∧
    ∃ x : ℕ, x < 2 ^ 64 ∧ ((toySolver 3).SetDP 3).IsDP x = false :=
  have h := all_words_DP_iff (toySolver 3) 3 (by decide)
  ⟨h.1, h.2.2.2 (by decide)⟩

/-! ## Configuration file -/

/-- The result of `ParseConfigFile` on a readable file with at least three configuration
lines: every key line contributes one entry, whatever `ParsePublicKeyHex` answers. -/
theorem ParseConfigFile_of_three_le {E : Type} (self : Kangaroo E)
    (SetBase16 : List Char → ℤ) (ParsePublicKeyHex : List Char → Bool × E)
    (content : List Char) (h : 3 ≤ (configLines content).length) :
    self.ParseConfigFile SetBase16 ParsePublicKeyHex (some content) =
      (true, { self with
        rangeStart := SetBase16 ((configLines content).getD 0 []),
        rangeEnd := SetBase16 ((configLines content).getD 1 []),
        keysToSearch := self.keysToSearch ++
          ((configLines content).drop 2).map fun line => (ParsePublicKeyHex line).2 }) := by
  simp only [Kangaroo.ParseConfigFile, if_neg (not_lt.mpr h)]

/-- The result of `ParseConfigFile` on a readable file with fewer than three configuration
lines. -/
theorem ParseConfigFile_of_lt_three {E : Type} (self : Kangaroo E)
    (SetBase16 : List Char → ℤ) (ParsePublicKeyHex : List Char → Bool × E)
    (content : List Char) (h : (configLines content).length < 3) :
    self.ParseConfigFile SetBase16 ParsePublicKeyHex (some content) = (false, self) := by
  simp only [Kangaroo.ParseConfigFile, if_pos h]

/-- The configuration lines of the file `0⏎FF⏎zz⏎`. -/
theorem configLines_fileBadKey : configLines fileBadKey = [['0'], ['F', 'F'], ['z', 'z']] := by
  decide

/-- C7 (invalid key lines are skipped) fails on the code.  On the file `0⏎FF⏎zz⏎`, whose
only key line `zz` is rejected by `ParsePublicKeyHex`, `ParseConfigFile` returns true and
`keysToSearch` has gained one entry, the point left by the failed parse, although no key
line was accepted. -/
theorem ParseConfigFile_keeps_rejected_key {E : Type} (self : Kangaroo E)
    (SetBase16 : List Char → ℤ) (ParsePublicKeyHex : List Char → Bool × E)
    (hrej : (ParsePublicKeyHex ['z', 'z']).1 = false) :
    (self.ParseConfigFile SetBase16 ParsePublicKeyHex (some fileBadKey)).1 = true ∧
    (self.ParseConfigFile SetBase16 ParsePublicKeyHex (some fileBadKey)).2.keysToSearch
      = self.keysToSearch ++ [(ParsePublicKeyHex ['z', 'z']).2] ∧
    (((configLines fileBadKey).drop 2).filter fun line => (ParsePublicKeyHex line).1) = [] := by
  have h3 : 3 ≤ (configLines fileBadKey).length := by rw [configLines_fileBadKey]; decide
  rw [ParseConfigFile_of_three_le self SetBase16 ParsePublicKeyHex fileBadKey h3,
    configLines_fileBadKey]
  refine ⟨rfl, rfl, ?_⟩
  simp [hrej]

/-- Witness of the C7 evaluation with a parser that rejects every line: the list of keys to
search, empty before, holds one entry after. -/
theorem ParseConfigFile_keeps_rejected_key_witness :
    (toyRejectAll ['z', 'z']).1 = false ∧
    (((toySolver 3).ParseConfigFile toySetBase16 toyRejectAll
      (some fileBadKey)).2.keysToSearch).length = 1 :=
  ⟨rfl, by
    rw [(ParseConfigFile_keeps_rejected_key (toySolver 3) toySetBase16 toyRejectAll rfl).2.1]
    rfl⟩

/-- C8 as stated fails: the file `1⏎⏎2` has three newline-separated lines, yet
`ParseConfigFile` returns false, because the blank line is not counted. -/
theorem ParseConfigFile_blank_line_counterexample :
    ¬ (((toySolver 3).ParseConfigFile toySetBase16 toyAcceptAll (some fileBlankLine)).1 = false
        ↔ (getlines fileBlankLine).length < 3) := by
  decide

/-- C8, amended.  On a readable file `ParseConfigFile` returns false, leaving the solver
unchanged, exactly when the file has fewer than three non-empty lines (white space at the
end of a line removed); otherwise it returns true with `rangeStart` read from the first
non-empty line and `rangeEnd` from the second, the other fields apart from `keysToSearch`
being kept. -/
theorem ParseConfigFile_length_check {E : Type} (self : Kangaroo E)
    (SetBase16 : List Char → ℤ) (ParsePublicKeyHex : List Char → Bool × E)
    (content : List Char) :
    ((self.ParseConfigFile SetBase16 ParsePublicKeyHex (some content)).1 = false ↔
      (((getlines content).map rstrip).filter fun line => line ≠ []).length < 3) ∧
    ((self.ParseConfigFile SetBase16 ParsePublicKeyHex (some content)).1 = false →
      (self.ParseConfigFile SetBase16 ParsePublicKeyHex (some content)).2 = self) ∧
    ((self.ParseConfigFile SetBase16 ParsePublicKeyHex (some content)).1 = true →
      ∃ l1 l2 rest,
        (((getlines content).map rstrip).filter fun line => line ≠ []) = l1 :: l2 :: rest ∧
        (self.ParseConfigFile SetBase16 ParsePublicKeyHex (some content)).2.rangeStart
          = SetBase16 l1 ∧
        (self.ParseConfigFile SetBase16 ParsePublicKeyHex (some content)).2.rangeEnd
          = SetBase16 l2) := by
  have hcl : (((getlines content).map rstrip).filter fun line => line ≠ [])
      = configLines content := by
    unfold configLines
    congr 1
    funext line
    cases line <;> simp
  rw [hcl]
  by_cases h : (configLines content).length < 3
  · rw [ParseConfigFile_of_lt_three self SetBase16 ParsePublicKeyHex content h]
    exact ⟨⟨fun _ => h, fun _ => rfl⟩, fun _ => rfl, fun hc => by simp at hc⟩
  · rw [ParseConfigFile_of_three_le self SetBase16 ParsePublicKeyHex content (not_lt.mp h)]
    refine ⟨⟨fun hc => by simp at hc, fun hc => absurd hc h⟩,
      fun hc => by simp at hc, fun _ => ?_⟩
    match hl : configLines content, h with
    | [], h => exact absurd (by simp) h
    | [_], h => exact absurd (by simp) h
    | l1 :: l2 :: rest, _ => exact ⟨l1, l2, rest, rfl, rfl, rfl⟩

/-! ## Starting parameters -/

/-- The bit length of a natural number is the ceiling of the binary logarithm of its
successor. -/
theorem size_eq_clog_succ (w : ℕ) : Nat.size w = Nat.clog 2 (w + 1) := by
  apply le_antisymm
  · rw [Nat.size_le]
    exact Nat.lt_of_succ_le ((Nat.le_pow_iff_clog_le (by norm_num)).mpr le_rfl)
  · rw [← Nat.le_pow_iff_clog_le (by norm_num)]
    exact Nat.succ_le_of_lt (Nat.lt_size_self w)

/-- The bit length of a positive natural number is the floor of its binary logarithm
plus one. -/
theorem size_eq_log_succ (w : ℕ) (hw : 1 ≤ w) : Nat.size w = Nat.log 2 w + 1 := by
  have hw0 : w ≠ 0 := by omega
  apply le_antisymm
  · rw [Nat.size_le]
    exact (Nat.lt_pow_iff_log_lt (by norm_num) hw0).mpr (Nat.lt_succ_self _)
  · have h := (Nat.lt_pow_iff_log_lt (b := 2) (by norm_num) hw0).mp (Nat.lt_size_self w)
    exact Nat.succ_le_of_lt h

/-- The bit length equals the ceiling of the binary logarithm exactly off the powers of
two. -/
theorem size_eq_clog_iff (w : ℕ) : Nat.size w = Nat.clog 2 w ↔ ¬ ∃ k : ℕ, w = 2 ^ k := by
  constructor
  · rintro h ⟨k, rfl⟩
    rw [Nat.clog_pow 2 k (by norm_num), Nat.size_pow] at h
    omega
  · intro h
    apply le_antisymm
    · rw [Nat.size_le]
      have hle : w ≤ 2 ^ Nat.clog 2 w := (Nat.le_pow_iff_clog_le (by norm_num)).mpr le_rfl
      exact lt_of_le_of_ne hle fun he => h ⟨_, he⟩
    · rw [← Nat.le_pow_iff_clog_le (by norm_num)]
      exact (Nat.lt_size_self w).le

/-- The range power computed by `Run` is the bit length of the width of the interval. -/
theorem RunSetParams_rangePower {E : Type} (self : Kangaroo E) :
    self.RunSetParams.rangePower = (Nat.size (self.rangeEnd - self.rangeStart).natAbs : ℤ) :=
  rfl

/-- C9 as stated fails: for `rangeStart = 2`, `rangeEnd = 6` the width is `4`, `Run` computes
`rangePower = 3` (the bit length of `4`), while `⌈log2 4⌉ = 2`. -/
theorem rangePower_counterexample :
    (toySolver 3).rangeStart ≤ (toySolver 3).rangeEnd ∧
    1 ≤ (toySolver 3).rangeEnd - (toySolver 3).rangeStart ∧
    (toySolver 3).RunSetParams.rangePower = 3 ∧
    Nat.clog 2 ((toySolver 3).rangeEnd - (toySolver 3).rangeStart).toNat = 2 ∧
    (toySolver 3).RunSetParams.rangePower
      ≠ Nat.clog 2 ((toySolver 3).rangeEnd - (toySolver 3).rangeStart).toNat := by
  have h1 : (toySolver 3).RunSetParams.rangePower = 3 := by
    rw [RunSetParams_rangePower]
    simp [toySolver, Nat.size, Nat.binaryRec]
  have h2 : Nat.clog 2 ((toySolver 3).rangeEnd - (toySolver 3).rangeStart).toNat = 2 := by
    simp [toySolver, Nat.clog]
  refine ⟨by decide, by decide, h1, h2, ?_⟩
  rw [h1, h2]
  decide

/-- C9, amended.  For `rangeStart ≤ rangeEnd` with width `w = rangeEnd - rangeStart ≥ 1`, the
range power computed by `Run` is the bit length of `w`: it equals `⌊log2 w⌋ + 1`, which is
`⌈log2 (w + 1)⌉`, and it equals `⌈log2 w⌉` exactly when `w` is not a power of two (for a
power of two it is `⌈log2 w⌉ + 1`). -/
theorem rangePower_eq {E : Type} (self : Kangaroo E)
    (_hle : self.rangeStart ≤ self.rangeEnd) (hw : 1 ≤ self.rangeEnd - self.rangeStart) :
    self.RunSetParams.rangePower
      = (Nat.log 2 (self.rangeEnd - self.rangeStart).toNat + 1 : ℕ) ∧
    self.RunSetParams.rangePower
      = (Nat.clog 2 ((self.rangeEnd - self.rangeStart).toNat + 1) : ℕ) ∧
    (self.RunSetParams.rangePower = (Nat.clog 2 (self.rangeEnd - self.rangeStart).toNat : ℕ)
      ↔ ¬ ∃ k : ℕ, (self.rangeEnd - self.rangeStart).toNat = 2 ^ k) ∧
    ((∃ k : ℕ, (self.rangeEnd - self.rangeStart).toNat = 2 ^ k) →
      self.RunSetParams.rangePower
        = (Nat.clog 2 (self.rangeEnd - self.rangeStart).toNat : ℕ) + 1) := by
  have hnat : (self.rangeEnd - self.rangeStart).natAbs
      = (self.rangeEnd - self.rangeStart).toNat := by omega
  have hw1 : 1 ≤ (self.rangeEnd - self.rangeStart).toNat := by omega
  rw [RunSetParams_rangePower, hnat]
  generalize (self.rangeEnd - self.rangeStart).toNat = w at hw1
  refine ⟨?_, ?_, ?_, ?_⟩
  · rw [size_eq_log_succ w hw1]
  · rw [size_eq_clog_succ w]
  · rw [Nat.cast_inj]
    exact size_eq_clog_iff w
  · rintro ⟨k, rfl⟩
    rw [Nat.clog_pow 2 k (by norm_num), Nat.size_pow]
    push_cast
    ring

/-- Witness of the amended C9 at `rangeStart = 2`, `rangeEnd = 6`. -/
theorem rangePower_eq_witness :
    (toySolver 3).RunSetParams.rangePower
      = (Nat.log 2 ((toySolver 3).rangeEnd - (toySolver 3).rangeStart).toNat + 1 : ℕ) :=
  (rangePower_eq (toySolver 3) (by decide) (by decide)).1

/-- The jump modulus set by `Run` is the one of its range power. -/
theorem RunSetParams_jumpModulo {E : Type} (self : Kangaroo E) :
    self.RunSetParams.jumpModulo = Kangaroo.jumpModuloFor self.RunSetParams.rangePower :=
  rfl

/-- The range power computed by `Run` is not negative. -/
theorem RunSetParams_rangePower_nonneg {E : Type} (self : Kangaroo E) :
    0 ≤ self.RunSetParams.rangePower := by
  rw [RunSetParams_rangePower]
  exact Int.natCast_nonneg _

/-- C10 (jump modulus).  Whatever the interval, with `rangePower` the range power `Run`
computes (which is never negative), `Run` sets
`jumpModulo = min(128, ⌊rangePower/2⌋ + 1)`, and this value lies in `[1, 128]`; and for
every `rangePower ≥ 0` the value lines 584-585 compute from it is
`min(128, ⌊rangePower/2⌋ + 1)`, in `[1, 128]`. -/
theorem jumpModulo_eq {E : Type} (self : Kangaroo E) :
    0 ≤ self.RunSetParams.rangePower ∧
    self.RunSetParams.jumpModulo = min 128 (self.RunSetParams.rangePower / 2 + 1) ∧
    1 ≤ self.RunSetParams.jumpModulo ∧
    self.RunSetParams.jumpModulo ≤ 128 ∧
    (∀ rangePower : ℤ, 0 ≤ rangePower →
      Kangaroo.jumpModuloFor rangePower = min 128 (rangePower / 2 + 1) ∧
      1 ≤ Kangaroo.jumpModuloFor rangePower ∧
      Kangaroo.jumpModuloFor rangePower ≤ 128) := by
  have key : ∀ rangePower : ℤ, 0 ≤ rangePower →
      Kangaroo.jumpModuloFor rangePower = min 128 (rangePower / 2 + 1) ∧
      1 ≤ Kangaroo.jumpModuloFor rangePower ∧
      Kangaroo.jumpModuloFor rangePower ≤ 128 := by
    intro rangePower h0
    have hdiv : rangePower.tdiv 2 = rangePower / 2 :=
      Int.tdiv_eq_ediv h0 (by norm_num)
    have hnn : 0 ≤ rangePower / 2 := Int.ediv_nonneg h0 (by norm_num)
    unfold Kangaroo.jumpModuloFor
    simp only [hdiv]
    by_cases h : rangePower / 2 + 1 > 128
    · rw [if_pos h, min_eq_left (le_of_lt h)]
      exact ⟨rfl, by norm_num, le_rfl⟩
    · rw [if_neg h, min_eq_right (not_lt.mp h)]
      exact ⟨rfl, by linarith, not_lt.mp h⟩
  have h0 := RunSetParams_rangePower_nonneg self
  have h := key self.RunSetParams.rangePower h0
  rw [← RunSetParams_jumpModulo] at h
  exact ⟨h0, h.1, h.2.1, h.2.2, key⟩

/-- Witness of C10: for `rangeStart = 2`, `rangeEnd = 6` (range power `3`) `Run` sets the
jump modulus `2`; and the value for the range power `256` is `128`. -/
theorem jumpModulo_eq_witness :
    (toySolver 3).RunSetParams.jumpModulo
      = min 128 ((toySolver 3).RunSetParams.rangePower / 2 + 1) ∧
    1 ≤ (toySolver 3).RunSetParams.jumpModulo ∧
    (toySolver 3).RunSetParams.jumpModulo ≤ 128 ∧
    Kangaroo.jumpModuloFor 256 = min 128 (256 / 2 + 1) :=
  have h := jumpModulo_eq (toySolver 3)
  ⟨h.2.1, h.2.2.1, h.2.2.2.1, (h.2.2.2.2 256 (by decide)).1⟩

/-! ## The walk step -/

section Walk

open WeierstrassCurve.Affine hiding Point

/-- A point `(x, y)` with `y² = x³ + 7` and `2y ≠ 0` is a nonsingular point of the curve. -/
theorem secp_nonsingular_of {p : ℕ} [Fact p.Prime] (x y : ZMod p)
    (he : y * y = x * x * x + 7) (hy : 2 * y ≠ 0) : (secpCurve p).Nonsingular x y := by
  rw [nonsingular_iff', equation_iff']
  simp only [secpCurve]
  refine ⟨?_, Or.inr ?_⟩
  · linear_combination he
  · simpa using hy

/-- The chord formulas of the walk step compute the group sum of two points with
different abscissae. -/
theorem secp_add_of_X_ne {p : ℕ} [Fact p.Prime] {x₁ y₁ x₂ y₂ : ZMod p}
    (h₁ : (secpCurve p).Nonsingular x₁ y₁) (h₂ : (secpCurve p).Nonsingular x₂ y₂)
    (hx : x₁ ≠ x₂) (s x₃ y₃ : ZMod p) (hs : s = (y₁ - y₂) * (x₁ - x₂)⁻¹)
    (hx₃ : x₃ = s * s - x₂ - x₁) (hy₃ : y₃ = (x₁ - x₃) * s - y₁) :
    ∃ h₃ : (secpCurve p).Nonsingular x₃ y₃, WeierstrassCurve.Affine.Point.some h₃ = WeierstrassCurve.Affine.Point.some h₁ + WeierstrassCurve.Affine.Point.some h₂ := by
  have hsum := nonsingular_add h₁ h₂ (fun h => (hx h).elim)
  have hsl : (secpCurve p).slope x₁ x₂ y₁ y₂ = s := by
    rw [slope_of_X_ne hx, hs, div_eq_mul_inv]
  have ex : (secpCurve p).addX x₁ x₂ ((secpCurve p).slope x₁ x₂ y₁ y₂) = x₃ := by
    rw [hsl, hx₃]; simp only [addX, secpCurve]; ring
  have ey : (secpCurve p).addY x₁ x₂ y₁ ((secpCurve p).slope x₁ x₂ y₁ y₂) = y₃ := by
    rw [hsl, hy₃, hx₃]; simp only [addY, negY, negAddY, addX, secpCurve]; ring
  have h₃ : (secpCurve p).Nonsingular x₃ y₃ := by rw [← ex, ← ey]; exact hsum
  refine ⟨h₃, ?_⟩
  rw [WeierstrassCurve.Affine.Point.add_of_X_ne hx]
  simp only [WeierstrassCurve.Affine.Point.some.injEq]
  exact ⟨ex.symm, ey.symm⟩

/-- The tangent formulas compute the double of a point with `2y ≠ 0`. -/
theorem secp_add_self {p : ℕ} [Fact p.Prime] {x₁ y₁ : ZMod p}
    (h₁ : (secpCurve p).Nonsingular x₁ y₁) (hy : 2 * y₁ ≠ 0)
    (s x₃ y₃ : ZMod p) (hs : s * (2 * y₁) = 3 * x₁ ^ 2)
    (hx₃ : x₃ = s * s - x₁ - x₁) (hy₃ : y₃ = (x₁ - x₃) * s - y₁) :
    ∃ h₃ : (secpCurve p).Nonsingular x₃ y₃, WeierstrassCurve.Affine.Point.some h₃ = WeierstrassCurve.Affine.Point.some h₁ + WeierstrassCurve.Affine.Point.some h₁ := by
  have hne : y₁ ≠ (secpCurve p).negY x₁ y₁ := by
    intro h
    apply hy
    simp only [negY, secpCurve, zero_mul, sub_zero] at h
    linear_combination h
  have hsum := nonsingular_add h₁ h₁ (fun _ => hne)
  have hsl : (secpCurve p).slope x₁ x₁ y₁ y₁ = s := by
    rw [slope_of_Y_ne rfl hne]
    simp only [negY, secpCurve, zero_mul, sub_zero, mul_zero, add_zero]
    rw [div_eq_iff (by intro h; apply hy; linear_combination h)]
    linear_combination -hs
  have ex : (secpCurve p).addX x₁ x₁ ((secpCurve p).slope x₁ x₁ y₁ y₁) = x₃ := by
    rw [hsl, hx₃]; simp only [addX, secpCurve]; ring
  have ey : (secpCurve p).addY x₁ x₁ y₁ ((secpCurve p).slope x₁ x₁ y₁ y₁) = y₃ := by
    rw [hsl, hy₃, hx₃]; simp only [addY, negY, negAddY, addX, secpCurve]; ring
  have h₃ : (secpCurve p).Nonsingular x₃ y₃ := by rw [← ex, ← ey]; exact hsum
  refine ⟨h₃, ?_⟩
  rw [WeierstrassCurve.Affine.Point.add_self_of_Y_ne hne]
  simp only [WeierstrassCurve.Affine.Point.some.injEq]
  exact ⟨ex.symm, ey.symm⟩

/-- Element `g` of the stepped herd. -/
theorem step_getElem? {p : ℕ} (self : Kangaroo (Point p))
    (ModInv : List (ZMod p) → List (ZMod p)) (herd : List (KANGAROO (Point p))) (g : ℕ)
    (K : KANGAROO (Point p)) (inv : ZMod p) (hK : herd[g]? = some K)
    (hinv : (ModInv (self.stepDx herd))[g]? = some inv) :
    (self.step ModInv herd)[g]? = some (self.stepOne K inv) := by
  rw [Kangaroo.step, List.getElem?_zipWith, hK, hinv]

/-- Element `g` of the differences computed by the first pass. -/
theorem stepDx_getElem? {p : ℕ} (self : Kangaroo (Point p))
    (herd : List (KANGAROO (Point p))) (g : ℕ) (K : KANGAROO (Point p))
    (hK : herd[g]? = some K) :
    (self.stepDx herd)[g]? = some (K.pos.x - (self.jumpPoint (self.jmp K)).x) := by
  rw [Kangaroo.stepDx, List.getElem?_map, hK]
  rfl

/-- C3 (kangaroo invariant preserved by the walk step, P1).  Let `K = herd[g]` satisfy I1,
let `j` be its jump index, let `jumpPoint[j]` be the curve point `jumpDistance[j]·G`, and
let `K.pos.x ≠ jumpPoint[j].x`.  If the batch inversion delivers the exact inverse of
`dx[g]`, then one batched step puts at `herd[g]` a kangaroo of the same type with
`s = dy·dx⁻¹`, `pos.x = s² - jumpPoint[j].x - K.pos.x`,
`pos.y = s·(K.pos.x - pos.x) - K.pos.y`, whose position is the group sum
`K.pos + jumpPoint[j]`, whose distance is `(K.distance + jumpDistance[j]) mod n`, and
which satisfies I1 again. -/
theorem walk_step_preserves_I1 {p : ℕ} [Fact p.Prime] (self : Kangaroo (Point p))
    (ModInv : List (ZMod p) → List (ZMod p))
    (hG : (secpCurve p).Nonsingular self.secp.G.x self.secp.G.y)
    (hQ : (secpCurve p).Nonsingular self.keyToSearch.x self.keyToSearch.y)
    (hn : self.secp.order • WeierstrassCurve.Affine.Point.some hG = 0)
    (herd : List (KANGAROO (Point p))) (g : ℕ) (K : KANGAROO (Point p)) (inv : ZMod p)
    (hK : herd[g]? = some K)
    (hinv : (ModInv (self.stepDx herd))[g]? = some inv)
    (hexact : ∀ dx, (self.stepDx herd)[g]? = some dx → inv = dx⁻¹)
    (hI1 : I1 (WeierstrassCurve.Affine.Point.some hG) (WeierstrassCurve.Affine.Point.some hQ) self.rangeStart K)
    (hJ : ∃ h : (secpCurve p).Nonsingular (self.jumpPoint (self.jmp K)).x
        (self.jumpPoint (self.jmp K)).y,
      WeierstrassCurve.Affine.Point.some h = self.jumpDistance (self.jmp K) • WeierstrassCurve.Affine.Point.some hG)
    (hx : K.pos.x ≠ (self.jumpPoint (self.jmp K)).x) :
    ∃ K' : KANGAROO (Point p),
      (self.step ModInv herd)[g]? = some K' ∧
      K'.type = K.type ∧
      K'.distance = (K.distance + self.jumpDistance (self.jmp K)) % self.secp.order ∧
      K'.pos.x = ((K.pos.y - (self.jumpPoint (self.jmp K)).y) * inv) ^ 2
        - (self.jumpPoint (self.jmp K)).x - K.pos.x ∧
      K'.pos.y = ((K.pos.y - (self.jumpPoint (self.jmp K)).y) * inv) * (K.pos.x - K'.pos.x)
        - K.pos.y ∧
      (∃ (hP : (secpCurve p).Nonsingular K.pos.x K.pos.y)
          (hJ' : (secpCurve p).Nonsingular (self.jumpPoint (self.jmp K)).x
            (self.jumpPoint (self.jmp K)).y)
          (hR : (secpCurve p).Nonsingular K'.pos.x K'.pos.y),
        WeierstrassCurve.Affine.Point.some hR = WeierstrassCurve.Affine.Point.some hP + WeierstrassCurve.Affine.Point.some hJ') ∧
      I1 (WeierstrassCurve.Affine.Point.some hG) (WeierstrassCurve.Affine.Point.some hQ) self.rangeStart K' := by
  obtain ⟨hP, hPeq⟩ := hI1
  obtain ⟨hJ', hJeq⟩ := hJ
  have hinv' : inv = (K.pos.x - (self.jumpPoint (self.jmp K)).x)⁻¹ :=
    hexact _ (stepDx_getElem? self herd g K hK)
  obtain ⟨hR, hReq⟩ := secp_add_of_X_ne hP hJ' hx
    ((K.pos.y - (self.jumpPoint (self.jmp K)).y) * inv)
    (self.stepOne K inv).pos.x (self.stepOne K inv).pos.y
    (by rw [hinv']) (by simp only [Kangaroo.stepOne]) (by simp only [Kangaroo.stepOne])
  refine ⟨self.stepOne K inv, step_getElem? self ModInv herd g K inv hK hinv, rfl, rfl,
    ?_, ?_, ⟨hP, hJ', hR, hReq⟩, hR, ?_⟩
  · simp only [Kangaroo.stepOne]; ring
  · simp only [Kangaroo.stepOne]; ring
  · have hd : (self.stepOne K inv).distance
        = (K.distance + self.jumpDistance (self.jmp K)) % self.secp.order := rfl
    have ht : (self.stepOne K inv).type = K.type := rfl
    rw [hReq, hPeq, hJeq, hd, ht]
    by_cases hT : K.type = TAME
    · rw [if_pos hT, if_pos hT, add_zsmul _ self.rangeStart (_ % _),
        emod_order_zsmul _ _ hn, add_zsmul, add_zsmul, add_assoc]
    · rw [if_neg hT, if_neg hT, emod_order_zsmul _ _ hn, add_zsmul, add_assoc]

/-- The point `G = (7, 5)` of the toy curve over `ZMod 13`. -/
theorem toy_G : (secpCurve 13).Nonsingular 7 5 :=
  secp_nonsingular_of 7 5 (by decide) (by decide)

/-- The point `2·G = (8, 5)` of the toy curve. -/
theorem toy_2G : (secpCurve 13).Nonsingular 8 5 :=
  secp_nonsingular_of 8 5 (by decide) (by decide)

/-- The point `3·G = (11, 8)` of the toy curve. -/
theorem toy_3G : (secpCurve 13).Nonsingular 11 8 :=
  secp_nonsingular_of 11 8 (by decide) (by decide)

/-- The point `4·G = (11, 5)` of the toy curve. -/
theorem toy_4G : (secpCurve 13).Nonsingular 11 5 :=
  secp_nonsingular_of 11 5 (by decide) (by decide)

/-- On the toy curve `G + G = (8, 5)`. -/
theorem toy_G_add_G :
    WeierstrassCurve.Affine.Point.some toy_G + WeierstrassCurve.Affine.Point.some toy_G
      = WeierstrassCurve.Affine.Point.some toy_2G := by
  obtain ⟨_, he⟩ := secp_add_self toy_G (by decide) 3 8 5 (by decide) (by decide) (by decide)
  exact he.symm

/-- On the toy curve `2·G + G = (11, 8)`. -/
theorem toy_2G_add_G :
    WeierstrassCurve.Affine.Point.some toy_2G + WeierstrassCurve.Affine.Point.some toy_G
      = WeierstrassCurve.Affine.Point.some toy_3G := by
  obtain ⟨_, he⟩ := secp_add_of_X_ne toy_2G toy_G (by decide) 0 11 8
    (by rw [sub_self, zero_mul]) (by decide) (by decide)
  exact he.symm

/-- On the toy curve `2·G + 2·G = (11, 5)`. -/
theorem toy_2G_add_2G :
    WeierstrassCurve.Affine.Point.some toy_2G + WeierstrassCurve.Affine.Point.some toy_2G
      = WeierstrassCurve.Affine.Point.some toy_4G := by
  obtain ⟨_, he⟩ := secp_add_self toy_2G (by decide) 1 11 5 (by decide) (by decide) (by decide)
  exact he.symm

/-- The generator of the toy curve has order `7`. -/
theorem toy_order : (7 : ℤ) • WeierstrassCurve.Affine.Point.some toy_G = 0 := by
  have h7 : (7 : ℤ) • WeierstrassCurve.Affine.Point.some toy_G
      = ((WeierstrassCurve.Affine.Point.some toy_G + WeierstrassCurve.Affine.Point.some toy_G)
          + WeierstrassCurve.Affine.Point.some toy_G)
        + ((WeierstrassCurve.Affine.Point.some toy_G + WeierstrassCurve.Affine.Point.some toy_G)
          + (WeierstrassCurve.Affine.Point.some toy_G
            + WeierstrassCurve.Affine.Point.some toy_G)) := by
    abel
  rw [h7, toy_G_add_G, toy_2G_add_G, toy_2G_add_2G]
  exact WeierstrassCurve.Affine.Point.add_of_Y_eq rfl (by decide)

/-- Witness of C3 on the toy curve: the Wild kangaroo standing on `Q = (8, 5)` with distance
`0` jumps by `jumpPoint[0] = G` to `(11, 8) = Q + 1·G`, with distance `1`. -/
theorem walk_step_preserves_I1_witness :
    I1 (WeierstrassCurve.Affine.Point.some toy_G) (WeierstrassCurve.Affine.Point.some toy_2G)
      toyWalker.rangeStart toyWild ∧
    toyWild.pos.x ≠ (toyWalker.jumpPoint (toyWalker.jmp toyWild)).x ∧
    ∃ K' : KANGAROO (Point 13),
      (toyWalker.step toyModInv [toyWild])[0]? = some K' ∧
      K'.distance = (0 + 1) % 7 ∧
      I1 (WeierstrassCurve.Affine.Point.some toy_G) (WeierstrassCurve.Affine.Point.some toy_2G)
        toyWalker.rangeStart K' := by
  have hI : I1 (WeierstrassCurve.Affine.Point.some toy_G)
      (WeierstrassCurve.Affine.Point.some toy_2G) toyWalker.rangeStart toyWild := by
    refine ⟨toy_2G, ?_⟩
    rw [if_neg (by decide)]
    simp [toyWild]
  have hx : toyWild.pos.x ≠ (toyWalker.jumpPoint (toyWalker.jmp toyWild)).x := by decide
  have hd : toyWalker.jumpDistance (toyWalker.jmp toyWild) = 1 := by decide
  obtain ⟨K', h1, _, h3, _, _, _, h7⟩ :=
    walk_step_preserves_I1 toyWalker toyModInv toy_G toy_2G toy_order [toyWild] 0 toyWild
      (toyWild.pos.x - (toyWalker.jumpPoint (toyWalker.jmp toyWild)).x)⁻¹ rfl rfl
      (fun dx h => by
        rw [stepDx_getElem? toyWalker [toyWild] 0 toyWild rfl] at h
        rw [← Option.some.inj h])
      hI ⟨toy_G, by rw [hd, one_zsmul]⟩ hx
  exact ⟨hI, hx, K', h1, h3, h7⟩

end Walk

/-! ## The jump table -/

/-- The loop of the constructor does not touch the curve oracle. -/
theorem jumpLoop_secp {E : Type} (DoubleDirect : E → E) (k : ℕ) (st : Kangaroo E) :
    (Kangaroo.jumpLoop DoubleDirect k st).secp = st.secp := by
  induction k with
  | zero => rfl
  | succ i ih => simpa [Kangaroo.jumpLoop] using ih

section JumpTable

variable {E : Type} [AddCommGroup E]

/-- After `k` iterations of the loop of the constructor, the entries `0, ..., k` of the
jump table are the powers of two and the corresponding multiples of `G`. -/
theorem jumpLoop_entries (DoubleDirect : E → E) (hD : ∀ P : E, DoubleDirect P = P + P)
    (G : E) (st : Kangaroo E) (hd0 : st.jumpDistance 0 = 1) (hp0 : st.jumpPoint 0 = G)
    (k : ℕ) :
    ∀ i : ℕ, i ≤ k →
      (Kangaroo.jumpLoop DoubleDirect k st).jumpDistance i = 2 ^ i ∧
      (Kangaroo.jumpLoop DoubleDirect k st).jumpPoint i = (2 ^ i : ℤ) • G := by
  induction k with
  | zero =>
    intro i hi
    have hi0 : i = 0 := Nat.le_zero.mp hi
    subst hi0
    simp [Kangaroo.jumpLoop, hd0, hp0]
  | succ k ih =>
    intro i hi
    rcases Nat.lt_or_ge i (k + 1) with hlt | hge
    · have hne : i ≠ k + 1 := Nat.ne_of_lt hlt
      have := ih i (Nat.lt_succ_iff.mp hlt)
      simpa [Kangaroo.jumpLoop, Function.update_noteq hne] using this
    · have hik : i = k + 1 := le_antisymm hi hge
      subst hik
      obtain ⟨h1, h2⟩ := ih k le_rfl
      constructor
      · simp only [Kangaroo.jumpLoop, Function.update_same, h1]
        ring
      · simp only [Kangaroo.jumpLoop, Function.update_same, h2, hD]
        rw [← add_zsmul]
        congr 1
        ring

/-- C12 (jump table).  Given that `DoubleDirect(P)` returns `P + P`: after the constructor,
for every `i` in `[0, 128]`, `jumpDistance[i]` is the integer `2^i` and `jumpPoint[i]` is
`jumpDistance[i]·G`. -/
theorem jump_table (self : Kangaroo E) (DoubleDirect : E → E)
    (hD : ∀ P : E, DoubleDirect P = P + P) (i : ℕ) (hi : i ≤ 128) :
    (self.initJumps DoubleDirect).jumpDistance i = 2 ^ i ∧
    (self.initJumps DoubleDirect).jumpPoint i
      = (self.initJumps DoubleDirect).jumpDistance i • (self.initJumps DoubleDirect).secp.G := by
  have hsecp : (self.initJumps DoubleDirect).secp = self.secp := by
    unfold Kangaroo.initJumps
    rw [jumpLoop_secp]
  have h := jumpLoop_entries DoubleDirect hD self.secp.G
    { self with jumpPoint := Function.update self.jumpPoint 0 self.secp.G,
                jumpDistance := Function.update self.jumpDistance 0 1 }
    (by simp) (by simp) 128 i hi
  refine ⟨h.1, ?_⟩
  rw [hsecp]
  unfold Kangaroo.initJumps
  rw [h.2, h.1]

/-- Witness of C12 on `ZMod 7`: entry `3` of the table is `8` and `8·G`. -/
theorem jump_table_witness :
    (∀ P : ZMod 7, toyDouble P = P + P) ∧
    ((toySolver 3).initJumps toyDouble).jumpDistance 3 = 2 ^ 3 ∧
    ((toySolver 3).initJumps toyDouble).jumpPoint 3
      = ((toySolver 3).initJumps toyDouble).jumpDistance 3
        • ((toySolver 3).initJumps toyDouble).secp.G :=
  ⟨fun _ => rfl, jump_table (toySolver 3) toyDouble (fun _ => rfl) 3 (by decide)⟩

end JumpTable

/-! ## Effective number of distinguished bits -/

/-- The size kept by `SetDP(size)` for a non-negative `size`: `min(size, 64)`. -/
theorem SetDP_dpSize {E : Type} (self : Kangaroo E) (size : ℤ) (h0 : 0 ≤ size) :
    (self.SetDP size).dpSize = min size 64 := by
  by_cases hz : size = 0
  · subst hz
    simp [Kangaroo.SetDP]
  · simp only [Kangaroo.SetDP, if_neg hz]
    rcases le_or_lt size 64 with h | h
    · rw [if_neg (not_lt.mpr h), min_eq_left h]
    · rw [if_pos h, min_eq_right h.le]

/-- Above 64 `SetDP` behaves as `SetDP(64)`. -/
theorem SetDP_of_gt {E : Type} (self : Kangaroo E) (size : ℤ) (h : 64 < size) :
    self.SetDP size = self.SetDP 64 := by
  have hz : size ≠ 0 := by omega
  simp [Kangaroo.SetDP, hz, h]

/-- C16 as stated fails: with `initDPSize = -1` and `optimalDP = 119` (a 256-bit range
walked by one CPU herd) the size in force after the calibration is `64`, not `119`. -/
theorem effective_dpSize_counterexample :
    ({ toySolver 3 with initDPSize := -1 } : Kangaroo (ZMod 7)).initDPSize < 0 ∧
    (0 : ℤ) ≤ 119 ∧
    (({ toySolver 3 with initDPSize := -1 } : Kangaroo (ZMod 7)).RunSetDP 119).dpSize = 64 ∧
    (({ toySolver 3 with initDPSize := -1 } : Kangaroo (ZMod 7)).RunSetDP 119).dpSize ≠ 119 := by
  decide

/-- C16, amended.  For every `initDPSize` and every `optimalDP ≥ 0`, the size in force
after the calibration of `Run` is `min(optimalDP, 64)` when `initDPSize < 0` (so `optimalDP`
itself when `optimalDP ≤ 64`) and `min(initDPSize, 64)` otherwise; and `SetDP(size)` for
any `size > 64` leaves `dpSize = 64` and `dMask = 0xFFFFFFFFFFFFFFFF`, exactly as `SetDP(64)`
does. -/
theorem effective_dpSize {E : Type} (self : Kangaroo E) (optimalDP : ℤ)
    (h0 : 0 ≤ optimalDP) :
    (self.initDPSize < 0 → (self.RunSetDP optimalDP).dpSize = min optimalDP 64) ∧
    (self.initDPSize < 0 → optimalDP ≤ 64 → (self.RunSetDP optimalDP).dpSize = optimalDP) ∧
    (0 ≤ self.initDPSize → (self.RunSetDP optimalDP).dpSize = min self.initDPSize 64) ∧
    (∀ size : ℤ, 64 < size →
      (self.SetDP size).dpSize = 64 ∧ (self.SetDP size).dMask = 0xFFFFFFFFFFFFFFFF ∧
      self.SetDP size = self.SetDP 64) := by
  refine ⟨fun hneg => ?_, fun hneg hle => ?_, fun hnn => ?_, fun size hs => ?_⟩
  · simp only [Kangaroo.RunSetDP, if_pos hneg]
    exact SetDP_dpSize _ optimalDP h0
  · simp only [Kangaroo.RunSetDP, if_pos hneg]
    rw [SetDP_dpSize _ optimalDP h0, min_eq_left hle]
  · simp only [Kangaroo.RunSetDP, if_neg (not_lt.mpr hnn)]
    exact SetDP_dpSize _ self.initDPSize hnn
  · have h64 := SetDP_of_gt self size hs
    refine ⟨?_, ?_, h64⟩
    · rw [SetDP_dpSize self size (by omega), min_eq_right hs.le]
    · rw [SetDP_dMask self size (by omega), min_eq_right hs.le]
      norm_num

/-- Witness of the amended C16 on a solver with `initDPSize = -1` and `optimalDP = 119`. -/
theorem effective_dpSize_witness :
    (({ toySolver 3 with initDPSize := -1 } : Kangaroo (ZMod 7)).RunSetDP 119).dpSize
      = min 119 64 :=
  (effective_dpSize ({ toySolver 3 with initDPSize := -1 } : Kangaroo (ZMod 7)) 119
    (by decide)).1 (by decide)

/-! ## The jump index -/

/-- The jump modulus of a non-negative range power lies in `[1, 128]`. -/
theorem jumpModuloFor_bounds (rangePower : ℤ) (h0 : 0 ≤ rangePower) :
    1 ≤ Kangaroo.jumpModuloFor rangePower ∧ Kangaroo.jumpModuloFor rangePower ≤ 128 := by
  have hdiv : rangePower.tdiv 2 = rangePower / 2 := Int.tdiv_eq_ediv h0 (by norm_num)
  have hnn : 0 ≤ rangePower / 2 := Int.ediv_nonneg h0 (by norm_num)
  unfold Kangaroo.jumpModuloFor
  simp only [hdiv]
  by_cases h : rangePower / 2 + 1 > 128
  · rw [if_pos h]
    exact ⟨by norm_num, le_rfl⟩
  · rw [if_neg h]
    exact ⟨by linarith, not_lt.mp h⟩

/-- After `k` iterations of the loop of the constructor, entry `i ≤ k` of the jump table
holds the distance `2^i` and the point obtained from `G` by `i` doublings. -/
theorem jumpLoop_table {E : Type} (DoubleDirect : E → E) (G : E) (st : Kangaroo E)
    (hd0 : st.jumpDistance 0 = 1) (hp0 : st.jumpPoint 0 = G) (k : ℕ) :
    ∀ i : ℕ, i ≤ k →
      (Kangaroo.jumpLoop DoubleDirect k st).jumpDistance i = 2 ^ i ∧
      (Kangaroo.jumpLoop DoubleDirect k st).jumpPoint i = DoubleDirect^[i] G := by
  induction k with
  | zero =>
    intro i hi
    have hi0 : i = 0 := Nat.le_zero.mp hi
    subst hi0
    simp [Kangaroo.jumpLoop, hd0, hp0]
  | succ k ih =>
    intro i hi
    rcases Nat.lt_or_ge i (k + 1) with hlt | hge
    · have hne : i ≠ k + 1 := Nat.ne_of_lt hlt
      have := ih i (Nat.lt_succ_iff.mp hlt)
      simpa [Kangaroo.jumpLoop, Function.update_noteq hne] using this
    · have hik : i = k + 1 := le_antisymm hi hge
      subst hik
      obtain ⟨h1, h2⟩ := ih k le_rfl
      constructor
      · simp only [Kangaroo.jumpLoop, Function.update_same, h1]
        ring
      · simp only [Kangaroo.jumpLoop, Function.update_same, h2]
        rw [Function.iterate_succ_apply']

/-- The jump table of the solver after the constructor and the starting parameters of
`Run`: entry `i ≤ 128` holds `2^i` and the `i`-th double of `G`. -/
theorem initJumps_RunSetParams_table {E : Type} (self : Kangaroo E) (DoubleDirect : E → E)
    (i : ℕ) (hi : i ≤ 128) :
    (self.initJumps DoubleDirect).RunSetParams.jumpDistance i = 2 ^ i ∧
    (self.initJumps DoubleDirect).RunSetParams.jumpPoint i = DoubleDirect^[i] self.secp.G :=
  jumpLoop_table DoubleDirect self.secp.G
    { self with jumpPoint := Function.update self.jumpPoint 0 self.secp.G,
                jumpDistance := Function.update self.jumpDistance 0 1 }
    (by simp) (by simp) 128 i hi

/-- C19 (the jump index is always safe).  Let the solver be the one left by the constructor
and by the starting parameters of `Run`, whatever the interval (the range power `Run`
computes is never negative).  Its jump modulus is not zero and at most `128`; every 64-bit
word `x` gives an index `x % jumpModulo < jumpModulo ≤ 128`; so the index of a kangaroo
addresses one of the entries `0..128` of the jump table, which the constructor has
initialised (distance `2^j`, point the `j`-th double of `G`); and both passes of the step
use this same index for the kangaroo at slot `g`: the first pass in `dx[g]`, the second in
the new position and distance.  For every `rangePower ≥ 0` the modulus of lines 584-585 is
in `[1, 128]`. -/
theorem jump_index_safe {p : ℕ} (self : Kangaroo (Point p))
    (DoubleDirect : Point p → Point p) (ModInv : List (ZMod p) → List (ZMod p))
    (herd : List (KANGAROO (Point p))) (g : ℕ) (K : KANGAROO (Point p)) (inv : ZMod p)
    (hK : herd[g]? = some K)
    (hinv : (ModInv ((self.initJumps DoubleDirect).RunSetParams.stepDx herd))[g]?
      = some inv) :
    (self.initJumps DoubleDirect).RunSetParams.jumpModulo.toNat ≠ 0 ∧
    (self.initJumps DoubleDirect).RunSetParams.jumpModulo.toNat ≤ 128 ∧
    (∀ x : ℕ, x < 2 ^ 64 →
      x % (self.initJumps DoubleDirect).RunSetParams.jumpModulo.toNat
        < (self.initJumps DoubleDirect).RunSetParams.jumpModulo.toNat ∧
      x % (self.initJumps DoubleDirect).RunSetParams.jumpModulo.toNat ≤ 128) ∧
    (self.initJumps DoubleDirect).RunSetParams.jmp K
      = Int.bits64 K.pos.x 0 % (self.initJumps DoubleDirect).RunSetParams.jumpModulo.toNat ∧
    Int.bits64 K.pos.x 0 < 2 ^ 64 ∧
    (self.initJumps DoubleDirect).RunSetParams.jmp K
      < (self.initJumps DoubleDirect).RunSetParams.jumpModulo.toNat ∧
    (self.initJumps DoubleDirect).RunSetParams.jmp K ≤ 128 ∧
    (self.initJumps DoubleDirect).RunSetParams.jumpDistance
        ((self.initJumps DoubleDirect).RunSetParams.jmp K)
      = 2 ^ (self.initJumps DoubleDirect).RunSetParams.jmp K ∧
    (self.initJumps DoubleDirect).RunSetParams.jumpPoint
        ((self.initJumps DoubleDirect).RunSetParams.jmp K)
      = DoubleDirect^[(self.initJumps DoubleDirect).RunSetParams.jmp K] self.secp.G ∧
    ((self.initJumps DoubleDirect).RunSetParams.stepDx herd)[g]?
      = some (K.pos.x - ((self.initJumps DoubleDirect).RunSetParams.jumpPoint
          ((self.initJumps DoubleDirect).RunSetParams.jmp K)).x) ∧
    (∃ K' : KANGAROO (Point p),
      ((self.initJumps DoubleDirect).RunSetParams.step ModInv herd)[g]? = some K' ∧
      K'.pos.x = ((K.pos.y - ((self.initJumps DoubleDirect).RunSetParams.jumpPoint
          ((self.initJumps DoubleDirect).RunSetParams.jmp K)).y) * inv) ^ 2
        - ((self.initJumps DoubleDirect).RunSetParams.jumpPoint
          ((self.initJumps DoubleDirect).RunSetParams.jmp K)).x - K.pos.x ∧
      K'.distance
        = Int.ModAddK1order (self.initJumps DoubleDirect).RunSetParams.secp.order K.distance
          ((self.initJumps DoubleDirect).RunSetParams.jumpDistance
            ((self.initJumps DoubleDirect).RunSetParams.jmp K))) ∧
    (∀ rangePower : ℤ, 0 ≤ rangePower →
      (Kangaroo.jumpModuloFor rangePower).toNat ≠ 0 ∧
      (Kangaroo.jumpModuloFor rangePower).toNat ≤ 128) := by
  have hrp := RunSetParams_rangePower_nonneg (self.initJumps DoubleDirect)
  obtain ⟨h1, h128⟩ :=
    jumpModuloFor_bounds (self.initJumps DoubleDirect).RunSetParams.rangePower hrp
  rw [← RunSetParams_jumpModulo] at h1 h128
  generalize hst : (self.initJumps DoubleDirect).RunSetParams = st at h1 h128 hinv
  have hpos : 0 < st.jumpModulo.toNat := by omega
  have hle : st.jumpModulo.toNat ≤ 128 := by omega
  have hmod : ∀ x : ℕ, x % st.jumpModulo.toNat < st.jumpModulo.toNat :=
    fun x => Nat.mod_lt x hpos
  have hj128 : st.jmp K ≤ 128 := le_trans (le_of_lt (hmod _)) hle
  have htab := initJumps_RunSetParams_table self DoubleDirect (st.jmp K) hj128
  rw [hst] at htab
  refine ⟨Nat.pos_iff_ne_zero.mp hpos, hle,
    fun x _ => ⟨hmod x, le_trans (le_of_lt (hmod x)) hle⟩, rfl, ?_, hmod _, hj128,
    htab.1, htab.2, stepDx_getElem? st herd g K hK,
    ⟨st.stepOne K inv, step_getElem? st ModInv herd g K inv hK hinv, ?_, rfl⟩, ?_⟩
  · exact Nat.mod_lt _ (by positivity)
  · simp only [Kangaroo.stepOne]
    ring
  · intro rangePower h0
    obtain ⟨ha, hb⟩ := jumpModuloFor_bounds rangePower h0
    constructor <;> omega

/-- Witness of C19 on the toy walker (`rangeStart = 1`, `rangeEnd = 5`): after the constructor
and the starting parameters of `Run` the jump modulus is `2`, and the Wild kangaroo on
`(8, 5)` takes the index `0`. -/
theorem jump_index_safe_witness :
    (toyWalker.initJumps toyDoubleDirect).RunSetParams.jumpModulo.toNat ≠ 0 ∧
    (toyWalker.initJumps toyDoubleDirect).RunSetParams.jmp toyWild
      < (toyWalker.initJumps toyDoubleDirect).RunSetParams.jumpModulo.toNat ∧
    (toyWalker.initJumps toyDoubleDirect).RunSetParams.jmp toyWild ≤ 128 ∧
    (toyWalker.initJumps toyDoubleDirect).RunSetParams.jumpDistance
        ((toyWalker.initJumps toyDoubleDirect).RunSetParams.jmp toyWild)
      = 2 ^ (toyWalker.initJumps toyDoubleDirect).RunSetParams.jmp toyWild :=
  have h := jump_index_safe toyWalker toyDoubleDirect toyModInv [toyWild] 0 toyWild
    (toyWild.pos.x - ((toyWalker.initJumps toyDoubleDirect).RunSetParams.jumpPoint
      ((toyWalker.initJumps toyDoubleDirect).RunSetParams.jmp toyWild)).x)⁻¹ rfl rfl
  ⟨h.1, h.2.2.2.2.2.1, h.2.2.2.2.2.2.1, h.2.2.2.2.2.2.2.1⟩

/-! ## Jump determinism -/

/-- The batched step with a batch inversion that inverts every lane exactly is the exact
step of every kangaroo. -/
theorem step_map_inv {p : ℕ} (self : Kangaroo (Point p)) (herd : List (KANGAROO (Point p))) :
    self.step (fun dx => dx.map fun a => a⁻¹) herd = herd.map self.stepExact := by
  unfold Kangaroo.step Kangaroo.stepDx
  induction herd with
  | nil => rfl
  | cons K rest ih =>
    simp only [List.map_cons, List.zipWith_cons_cons, List.map_map] at ih ⊢
    rw [ih]
    rfl

/-- The jump index depends on the abscissa only. -/
theorem jmp_congr {p : ℕ} (self : Kangaroo (Point p)) (K₁ K₂ : KANGAROO (Point p))
    (hx : K₁.pos.x = K₂.pos.x) : self.jmp K₁ = self.jmp K₂ := by
  unfold Kangaroo.jmp
  rw [hx]

/-- The position after an exact step depends on the position only. -/
theorem stepExact_pos_congr {p : ℕ} (self : Kangaroo (Point p)) (K₁ K₂ : KANGAROO (Point p))
    (hpos : K₁.pos = K₂.pos) : (self.stepExact K₁).pos = (self.stepExact K₂).pos := by
  have hj := jmp_congr self K₁ K₂ (congrArg Point.x hpos)
  simp only [Kangaroo.stepExact, Kangaroo.stepOne, hj, hpos]

/-- Two kangaroos on the same point are on the same point after any number of exact
steps. -/
theorem iterate_stepExact_pos {p : ℕ} (self : Kangaroo (Point p))
    (K₁ K₂ : KANGAROO (Point p)) (hpos : K₁.pos = K₂.pos) (n : ℕ) :
    (self.stepExact^[n] K₁).pos = (self.stepExact^[n] K₂).pos := by
  induction n with
  | zero => exact hpos
  | succ n ih =>
    rw [Function.iterate_succ_apply', Function.iterate_succ_apply']
    exact stepExact_pos_congr self _ _ ih

/-- C13 as stated fails: on the toy curve the kangaroos at `(8, 5)` and `(8, 8)` have the same
abscissa and the same jump index, but one batched step (every lane inverted exactly) takes
them to `(11, 8)` and `(7, 8)`. -/
theorem jump_determinism_counterexample :
    toyWild.pos.x = toyTame.pos.x ∧
    toyWalker.jmp toyWild = toyWalker.jmp toyTame ∧
    (toyWalker.step (fun dx => dx.map fun a => a⁻¹) [toyWild, toyTame]).map (fun K => K.pos)
      = [{ x := 11, y := 8 }, { x := 7, y := 8 }] ∧
    (toyWalker.stepExact toyWild).pos ≠ (toyWalker.stepExact toyTame).pos := by
  have hinv : ((8 : ZMod 13) - 7)⁻¹ = 1 := by norm_num
  have h1 : toyWalker.stepExact toyWild = toyWalker.stepOne toyWild 1 := by
    unfold Kangaroo.stepExact
    congr 1
  have h2 : toyWalker.stepExact toyTame = toyWalker.stepOne toyTame 1 := by
    unfold Kangaroo.stepExact
    congr 1
  refine ⟨rfl, by decide, ?_, ?_⟩
  · rw [step_map_inv, List.map_map]
    simp only [List.map_cons, List.map_nil, Function.comp_apply, h1, h2]
    decide
  · rw [h1, h2]
    decide

/-- C13, amended.  Two kangaroos whose positions coincide (same `x` and same `y`), under
the same jump modulus and jump table, inverting `dx` exactly: after any number `n` of steps
they stand on the same point, they take the same jump index at step `n + 1`, and the
distance of each grows at that step by the same `jumpDistance[j]` (modulo the order).  When
only the abscissae coincide, the first jump index is the same. -/
theorem jump_determinism {p : ℕ} (self : Kangaroo (Point p)) (K₁ K₂ : KANGAROO (Point p)) :
    (K₁.pos.x = K₂.pos.x → self.jmp K₁ = self.jmp K₂) ∧
    (K₁.pos = K₂.pos → ∀ n : ℕ,
      (self.stepExact^[n] K₁).pos = (self.stepExact^[n] K₂).pos ∧
      self.jmp (self.stepExact^[n] K₁) = self.jmp (self.stepExact^[n] K₂) ∧
      (self.stepExact^[n + 1] K₁).distance
        = ((self.stepExact^[n] K₁).distance
            + self.jumpDistance (self.jmp (self.stepExact^[n] K₁))) % self.secp.order ∧
      (self.stepExact^[n + 1] K₂).distance
        = ((self.stepExact^[n] K₂).distance
            + self.jumpDistance (self.jmp (self.stepExact^[n] K₁))) % self.secp.order) := by
  refine ⟨jmp_congr self K₁ K₂, fun hpos n => ?_⟩
  have hp := iterate_stepExact_pos self K₁ K₂ hpos n
  have hj := jmp_congr self _ _ (congrArg Point.x hp)
  refine ⟨hp, hj, ?_, ?_⟩
  · rw [Function.iterate_succ_apply']
    rfl
  · rw [Function.iterate_succ_apply', hj]
    rfl

/-! ## Processing of distinguished points -/

/-- The type of a created kangaroo is the one asked for. -/
theorem Create_type {E : Type} [AddCommGroup E] (self : Kangaroo E) (type : ℕ) (r : ℤ)
    (hty : type = TAME ∨ type = WILD) : (self.Create type r).type = type := by
  rcases hty with h | h
  · rw [h]; simp [Kangaroo.Create]
  · rw [h]; simp [Kangaroo.Create, WILD, TAME]

section DPLoop

variable {E H : Type} [AddCommGroup E] [DecidableEq E]

/-- What the CPU match handler prints: nothing, or one key together with `endOfSearch`. -/
theorem matchCPU_stdout (self : Kangaroo E) (K : KANGAROO E) (type : ℕ) (d r : ℤ) :
    ((self.matchCPU K type d r).1.stdout = self.stdout ∧
      (self.matchCPU K type d r).1.endOfSearch = self.endOfSearch) ∨
    (∃ k, (self.matchCPU K type d r).1.stdout = self.stdout ++ [k] ∧
      (self.matchCPU K type d r).1.endOfSearch = true) := by
  unfold Kangaroo.matchCPU
  simp only
  split_ifs
  · exact Or.inl ⟨rfl, rfl⟩
  · exact Or.inr ⟨_, rfl, rfl⟩
  · exact Or.inr ⟨_, rfl, rfl⟩
  · exact Or.inl ⟨rfl, rfl⟩

/-- What the GPU match handler prints: nothing, or one key together with `endOfSearch`. -/
theorem matchGPU_stdout (self : Kangaroo E) (kIdx : ℕ) (itemD : ℤ) (type : ℕ) (d r : ℤ) :
    ((self.matchGPU kIdx itemD type d r).1.stdout = self.stdout ∧
      (self.matchGPU kIdx itemD type d r).1.endOfSearch = self.endOfSearch) ∨
    (∃ k, (self.matchGPU kIdx itemD type d r).1.stdout = self.stdout ++ [k] ∧
      (self.matchGPU kIdx itemD type d r).1.endOfSearch = true) := by
  unfold Kangaroo.matchGPU
  simp only
  split_ifs
  · exact Or.inl ⟨rfl, rfl⟩
  · exact Or.inr ⟨_, rfl, rfl⟩
  · exact Or.inr ⟨_, rfl, rfl⟩
  · exact Or.inl ⟨rfl, rfl⟩

/-- The CPU handler on a match inside the herd of the reporter. -/
theorem matchCPU_same (self : Kangaroo E) (K : KANGAROO E) (type : ℕ) (d r : ℤ)
    (hsame : type = K.type) :
    self.matchCPU K type d r =
      ({ self with collisionInSameHerd := self.collisionInSameHerd + 1 },
        self.Create K.type r) := by
  subst hsame
  simp only [Kangaroo.matchCPU, if_true]

/-- The GPU handler on a match inside the herd of the reporter. -/
theorem matchGPU_same (self : Kangaroo E) (kIdx : ℕ) (itemD : ℤ) (type : ℕ) (d r : ℤ)
    (hsame : type = kIdx % 2) :
    self.matchGPU kIdx itemD type d r =
      ({ self with collisionInSameHerd := self.collisionInSameHerd + 1 },
        some (self.Create (kIdx % 2) r)) := by
  simp only [Kangaroo.matchGPU, if_pos hsame]

/-- The CPU loop body when `hashTable.Add` signals a match. -/
theorem dpStepCPU_match (Add : H → ℕ → ℤ → ℕ → H × Option (ℕ × ℤ)) (xOf : E → ℕ)
    (rand : ℕ → ℤ) (w : Worker E H) (g : ℕ) (K : KANGAROO E) (table : H) (type : ℕ) (d : ℤ)
    (hK : w.herd[g]? = some K)
    (hDP : w.solver.IsDP (natBits64 (xOf K.pos) 3) = true)
    (hend : w.solver.endOfSearch = false)
    (hAdd : Add w.table (xOf K.pos) K.distance K.type = (table, some (type, d))) :
    Kangaroo.dpStepCPU Add xOf rand w g =
      { solver := (w.solver.matchCPU K type d (rand g)).1,
        herd := w.herd.set g (w.solver.matchCPU K type d (rand g)).2,
        table := table,
        addCalls := w.addCalls + 1 } := by
  simp only [Kangaroo.dpStepCPU, hK, hDP, hend, hAdd, if_true, Bool.not_false]

/-- The GPU loop body when `hashTable.Add` signals a match. -/
theorem dpStepGPU_match (Add : H → ℕ → ℤ → ℕ → H × Option (ℕ × ℤ))
    (rand : ℕ → ℤ) (w : Worker E H) (g : ℕ) (item : ITEM) (table : H) (type : ℕ) (d : ℤ)
    (hAdd : Add w.table item.x item.d (item.kIdx % 2) = (table, some (type, d))) :
    Kangaroo.dpStepGPU Add rand w g item =
      { solver := (w.solver.matchGPU item.kIdx item.d type d (rand g)).1,
        herd :=
          match (w.solver.matchGPU item.kIdx item.d type d (rand g)).2 with
          | some K => w.herd.set item.kIdx K
          | none => w.herd,
        table := table,
        addCalls := w.addCalls + 1 } := by
  simp only [Kangaroo.dpStepGPU, hAdd]

/-- C17 (intra-herd collision handling).  A DP report for which `hashTable.Add` signals a
match whose stored type is the type of the reporting kangaroo.  In `SolveKeyCPU` (for every
slot `g` of the herd whose kangaroo is distinguished, `endOfSearch` being false) and in
`SolveKeyGPU` (for every item of `gpuFound` the loop visits, whatever the worker): the
reporting kangaroo is replaced by a kangaroo created from a fresh draw, of that same
type; `collisionInSameHerd` grows by exactly one; no key is printed; `endOfSearch` and
every other kangaroo are unchanged.  The two halves have hypotheses of their own. -/
theorem same_herd_collision (Add : H → ℕ → ℤ → ℕ → H × Option (ℕ × ℤ)) (xOf : E → ℕ)
    (rand : ℕ → ℤ) (w : Worker E H) (g : ℕ) :
    (∀ (K : KANGAROO E) (table : H) (type : ℕ) (d : ℤ),
      w.herd[g]? = some K →
      (K.type = TAME ∨ K.type = WILD) →
      w.solver.IsDP (natBits64 (xOf K.pos) 3) = true →
      w.solver.endOfSearch = false →
      Add w.table (xOf K.pos) K.distance K.type = (table, some (type, d)) →
      type = K.type →
      (Kangaroo.dpStepCPU Add xOf rand w g).herd
          = w.herd.set g (w.solver.Create K.type (rand g)) ∧
        (Kangaroo.dpStepCPU Add xOf rand w g).herd[g]?
          = some (w.solver.Create K.type (rand g)) ∧
        (w.solver.Create K.type (rand g)).type = K.type ∧
        (∀ i : ℕ, i ≠ g → (Kangaroo.dpStepCPU Add xOf rand w g).herd[i]? = w.herd[i]?) ∧
        (Kangaroo.dpStepCPU Add xOf rand w g).solver
          = { w.solver with collisionInSameHerd := w.solver.collisionInSameHerd + 1 } ∧
        (Kangaroo.dpStepCPU Add xOf rand w g).solver.collisionInSameHerd
          = w.solver.collisionInSameHerd + 1 ∧
        (Kangaroo.dpStepCPU Add xOf rand w g).solver.stdout = w.solver.stdout ∧
        (Kangaroo.dpStepCPU Add xOf rand w g).solver.endOfSearch = w.solver.endOfSearch) ∧
    (∀ (item : ITEM) (table : H) (type : ℕ) (d : ℤ),
      Add w.table item.x item.d (item.kIdx % 2) = (table, some (type, d)) →
      type = item.kIdx % 2 →
      (Kangaroo.dpStepGPU Add rand w g item).herd
          = w.herd.set item.kIdx (w.solver.Create (item.kIdx % 2) (rand g)) ∧
        (w.solver.Create (item.kIdx % 2) (rand g)).type = item.kIdx % 2 ∧
        (∀ i : ℕ, i ≠ item.kIdx →
          (Kangaroo.dpStepGPU Add rand w g item).herd[i]? = w.herd[i]?) ∧
        (Kangaroo.dpStepGPU Add rand w g item).solver
          = { w.solver with collisionInSameHerd := w.solver.collisionInSameHerd + 1 } ∧
        (Kangaroo.dpStepGPU Add rand w g item).solver.collisionInSameHerd
          = w.solver.collisionInSameHerd + 1 ∧
        (Kangaroo.dpStepGPU Add rand w g item).solver.stdout = w.solver.stdout ∧
        (Kangaroo.dpStepGPU Add rand w g item).solver.endOfSearch = w.solver.endOfSearch ∧
        (w.solver.endOfSearch = false → ∀ items : List ITEM,
          Kangaroo.dpLoopGPU Add rand w g (item :: items)
            = Kangaroo.dpLoopGPU Add rand (Kangaroo.dpStepGPU Add rand w g item) (g + 1)
                items)) := by
  constructor
  · intro K table type d hK hty hDP hend hAdd hsame
    have hg : g < w.herd.length := (List.getElem?_eq_some.mp hK).1
    rw [dpStepCPU_match Add xOf rand w g K table type d hK hDP hend hAdd,
      matchCPU_same w.solver K type d (rand g) hsame]
    exact ⟨rfl, List.getElem?_set_self hg, Create_type _ _ _ hty,
      fun i hi => List.getElem?_set_ne (Ne.symm hi), rfl, rfl, rfl, rfl⟩
  · intro item table type d hAdd hsame
    have hmod : item.kIdx % 2 = TAME ∨ item.kIdx % 2 = WILD := by
      rcases Nat.mod_two_eq_zero_or_one item.kIdx with h | h
      · exact Or.inl h
      · exact Or.inr h
    have hfull : Kangaroo.dpStepGPU Add rand w g item =
        { solver :=
            { w.solver with collisionInSameHerd := w.solver.collisionInSameHerd + 1 },
          herd := w.herd.set item.kIdx (w.solver.Create (item.kIdx % 2) (rand g)),
          table := table,
          addCalls := w.addCalls + 1 } := by
      rw [dpStepGPU_match Add rand w g item table type d hAdd,
        matchGPU_same w.solver item.kIdx item.d type d (rand g) hsame]
    have hloop : w.solver.endOfSearch = false → ∀ items : List ITEM,
        Kangaroo.dpLoopGPU Add rand w g (item :: items)
          = Kangaroo.dpLoopGPU Add rand (Kangaroo.dpStepGPU Add rand w g item) (g + 1)
              items := by
      intro hend items
      simp only [Kangaroo.dpLoopGPU, hend, Bool.false_eq_true, if_false]
    refine ⟨by rw [hfull], Create_type _ _ _ hmod, fun i hi => ?_, by rw [hfull],
      by rw [hfull], by rw [hfull], by rw [hfull], hloop⟩
    rw [hfull]
    exact List.getElem?_set_ne (Ne.symm hi)

end DPLoop

/-- Witness of C17.  CPU: the Tame kangaroo of slot `0` of the toy worker reports a point
that a Tame row of the table already holds.  GPU: a worker whose list of kangaroos is
empty and an item of the Tame kangaroo `0`, for which the table holds a Tame row. -/
theorem same_herd_collision_witness :
    ((toyWorker 3).herd[0]? = some { pos := 0, distance := 5, type := TAME } ∧
      (Kangaroo.dpStepCPU toyAddTame toyXOf toyRand (toyWorker 3) 0).solver.collisionInSameHerd
        = (toyWorker 3).solver.collisionInSameHerd + 1 ∧
      (Kangaroo.dpStepCPU toyAddTame toyXOf toyRand (toyWorker 3) 0).solver.stdout
        = (toyWorker 3).solver.stdout) ∧
    (toyAddTame () 0 5 (0 % 2) = ((), some (TAME, 4)) ∧
      (Kangaroo.dpStepGPU toyAddTame toyRand
          ({ toyWorker 3 with herd := [] } : Worker (ZMod 7) Unit) 0
          { x := 0, d := 5, kIdx := 0 }).solver.collisionInSameHerd
        = ({ toyWorker 3 with herd := [] } : Worker (ZMod 7) Unit).solver.collisionInSameHerd
          + 1 ∧
      (Kangaroo.dpStepGPU toyAddTame toyRand
          ({ toyWorker 3 with herd := [] } : Worker (ZMod 7) Unit) 0
          { x := 0, d := 5, kIdx := 0 }).solver.stdout
        = ({ toyWorker 3 with herd := [] } : Worker (ZMod 7) Unit).solver.stdout) :=
  have hc := (same_herd_collision toyAddTame toyXOf toyRand (toyWorker 3) 0).1
    { pos := 0, distance := 5, type := TAME } () TAME 4 rfl (Or.inl rfl) (by decide) rfl rfl
    rfl
  have hg := (same_herd_collision toyAddTame toyXOf toyRand
    ({ toyWorker 3 with herd := [] } : Worker (ZMod 7) Unit) 0).2
    { x := 0, d := 5, kIdx := 0 } () TAME 4 rfl rfl
  ⟨⟨rfl, hc.2.2.2.2.2.1, hc.2.2.2.2.2.2.1⟩, ⟨rfl, hg.2.2.2.2.1, hg.2.2.2.2.2.1⟩⟩

/-! ## Matches after a solution -/

section AfterSolution

variable {E H : Type} [AddCommGroup E] [DecidableEq E]

/-- Once `endOfSearch` is set, the CPU loop body does nothing. -/
theorem dpStepCPU_of_end (Add : H → ℕ → ℤ → ℕ → H × Option (ℕ × ℤ)) (xOf : E → ℕ)
    (rand : ℕ → ℤ) (w : Worker E H) (g : ℕ) (hend : w.solver.endOfSearch = true) :
    Kangaroo.dpStepCPU Add xOf rand w g = w := by
  unfold Kangaroo.dpStepCPU
  cases w.herd[g]? with
  | none => rfl
  | some K => simp [hend]

/-- Once `endOfSearch` is set, the remaining slots of the CPU loop do nothing. -/
theorem foldl_dpStepCPU_of_end (Add : H → ℕ → ℤ → ℕ → H × Option (ℕ × ℤ)) (xOf : E → ℕ)
    (rand : ℕ → ℤ) (gs : List ℕ) (w : Worker E H) (hend : w.solver.endOfSearch = true) :
    gs.foldl (Kangaroo.dpStepCPU Add xOf rand) w = w := by
  induction gs with
  | nil => rfl
  | cons g rest ih => rw [List.foldl_cons, dpStepCPU_of_end Add xOf rand w g hend, ih]

/-- Once `endOfSearch` is set, the GPU loop stops. -/
theorem dpLoopGPU_of_end (Add : H → ℕ → ℤ → ℕ → H × Option (ℕ × ℤ)) (rand : ℕ → ℤ)
    (w : Worker E H) (g : ℕ) (items : List ITEM) (hend : w.solver.endOfSearch = true) :
    Kangaroo.dpLoopGPU Add rand w g items = w := by
  cases items with
  | nil => rfl
  | cons item rest => simp [Kangaroo.dpLoopGPU, hend]

/-- The CPU loop body prints nothing, or prints one key and sets `endOfSearch`. -/
theorem dpStepCPU_stdout (Add : H → ℕ → ℤ → ℕ → H × Option (ℕ × ℤ)) (xOf : E → ℕ)
    (rand : ℕ → ℤ) (w : Worker E H) (g : ℕ) :
    (Kangaroo.dpStepCPU Add xOf rand w g).solver.stdout = w.solver.stdout ∨
    (∃ k, (Kangaroo.dpStepCPU Add xOf rand w g).solver.stdout = w.solver.stdout ++ [k] ∧
      (Kangaroo.dpStepCPU Add xOf rand w g).solver.endOfSearch = true) := by
  unfold Kangaroo.dpStepCPU
  cases w.herd[g]? with
  | none => exact Or.inl rfl
  | some K =>
    simp only
    split_ifs
    · rcases hA : Add w.table (xOf K.pos) K.distance K.type with ⟨table, _ | ⟨type, d⟩⟩
      · exact Or.inl rfl
      · rcases matchCPU_stdout w.solver K type d (rand g) with h | h
        · exact Or.inl h.1
        · exact Or.inr h
    · exact Or.inl rfl
    · exact Or.inl rfl

/-- The GPU loop body prints nothing, or prints one key and sets `endOfSearch`. -/
theorem dpStepGPU_stdout (Add : H → ℕ → ℤ → ℕ → H × Option (ℕ × ℤ))
    (rand : ℕ → ℤ) (w : Worker E H) (g : ℕ) (item : ITEM) :
    (Kangaroo.dpStepGPU Add rand w g item).solver.stdout = w.solver.stdout ∨
    (∃ k, (Kangaroo.dpStepGPU Add rand w g item).solver.stdout = w.solver.stdout ++ [k] ∧
      (Kangaroo.dpStepGPU Add rand w g item).solver.endOfSearch = true) := by
  unfold Kangaroo.dpStepGPU
  simp only
  rcases hA : Add w.table item.x item.d (item.kIdx % 2) with ⟨table, _ | ⟨type, d⟩⟩
  · exact Or.inl rfl
  · rcases matchGPU_stdout w.solver item.kIdx item.d type d (rand g) with h | h
    · exact Or.inl h.1
    · exact Or.inr h

/-- Any run of slots of the CPU loop prints at most one key. -/
theorem foldl_dpStepCPU_stdout (Add : H → ℕ → ℤ → ℕ → H × Option (ℕ × ℤ)) (xOf : E → ℕ)
    (rand : ℕ → ℤ) (gs : List ℕ) (w : Worker E H) :
    (gs.foldl (Kangaroo.dpStepCPU Add xOf rand) w).solver.stdout = w.solver.stdout ∨
    ∃ k, (gs.foldl (Kangaroo.dpStepCPU Add xOf rand) w).solver.stdout
      = w.solver.stdout ++ [k] := by
  induction gs generalizing w with
  | nil => exact Or.inl rfl
  | cons g rest ih =>
    rw [List.foldl_cons]
    rcases dpStepCPU_stdout Add xOf rand w g with h | ⟨k, hk, hend⟩
    · rcases ih (Kangaroo.dpStepCPU Add xOf rand w g) with h' | ⟨k, hk⟩
      · exact Or.inl (h'.trans h)
      · exact Or.inr ⟨k, by rw [hk, h]⟩
    · rw [foldl_dpStepCPU_of_end Add xOf rand rest _ hend]
      exact Or.inr ⟨k, hk⟩

/-- The GPU loop prints at most one key. -/
theorem dpLoopGPU_stdout (Add : H → ℕ → ℤ → ℕ → H × Option (ℕ × ℤ)) (rand : ℕ → ℤ)
    (items : List ITEM) (w : Worker E H) (g : ℕ) :
    (Kangaroo.dpLoopGPU Add rand w g items).solver.stdout = w.solver.stdout ∨
    ∃ k, (Kangaroo.dpLoopGPU Add rand w g items).solver.stdout = w.solver.stdout ++ [k] := by
  induction items generalizing w g with
  | nil => exact Or.inl rfl
  | cons item rest ih =>
    by_cases hend : w.solver.endOfSearch = true
    · rw [dpLoopGPU_of_end Add rand w g _ hend]
      exact Or.inl rfl
    · simp only [Kangaroo.dpLoopGPU, if_neg hend]
      rcases dpStepGPU_stdout Add rand w g item with h | ⟨k, hk, hend'⟩
      · rcases ih (Kangaroo.dpStepGPU Add rand w g item) (g + 1) with h' | ⟨k, hk⟩
        · exact Or.inl (h'.trans h)
        · exact Or.inr ⟨k, by rw [hk, h]⟩
      · rw [dpLoopGPU_of_end Add rand _ (g + 1) rest hend']
        exact Or.inr ⟨k, hk⟩

/-- C18 (matches after a solution are dropped).  Once `endOfSearch` is true, the remaining
slots of the CPU loop and the remaining items of the GPU loop leave the worker as it is:
no call of `hashTable.Add` (the table and the count of calls are unchanged), no key
printed, no kangaroo respawned, `collisionInSameHerd` unchanged.  Hence a run of the
DP-processing loop of a worker, CPU or GPU, prints at most one key. -/
theorem matches_after_solution_dropped (Add : H → ℕ → ℤ → ℕ → H × Option (ℕ × ℤ))
    (xOf : E → ℕ) (rand : ℕ → ℤ) (w : Worker E H) :
    (w.solver.endOfSearch = true →
      (∀ gs : List ℕ, gs.foldl (Kangaroo.dpStepCPU Add xOf rand) w = w) ∧
      Kangaroo.dpLoopCPU Add xOf rand w = w ∧
      (∀ (g : ℕ) (items : List ITEM), Kangaroo.dpLoopGPU Add rand w g items = w)) ∧
    (∀ gs₁ gs₂ : List ℕ,
      (gs₁.foldl (Kangaroo.dpStepCPU Add xOf rand) w).solver.endOfSearch = true →
      (gs₁ ++ gs₂).foldl (Kangaroo.dpStepCPU Add xOf rand) w
        = gs₁.foldl (Kangaroo.dpStepCPU Add xOf rand) w) ∧
    ((Kangaroo.dpLoopCPU Add xOf rand w).solver.stdout = w.solver.stdout ∨
      ∃ k, (Kangaroo.dpLoopCPU Add xOf rand w).solver.stdout = w.solver.stdout ++ [k]) ∧
    (∀ items : List ITEM,
      (Kangaroo.dpLoopGPU Add rand w 0 items).solver.stdout = w.solver.stdout ∨
      ∃ k, (Kangaroo.dpLoopGPU Add rand w 0 items).solver.stdout = w.solver.stdout ++ [k]) := by
  refine ⟨fun hend => ⟨fun gs => foldl_dpStepCPU_of_end Add xOf rand gs w hend, ?_,
      fun g items => dpLoopGPU_of_end Add rand w g items hend⟩,
    fun gs₁ gs₂ hend => ?_, ?_, fun items => dpLoopGPU_stdout Add rand items w 0⟩
  · unfold Kangaroo.dpLoopCPU
    exact foldl_dpStepCPU_of_end Add xOf rand (List.range CPU_GRP_SIZE) w hend
  · rw [List.foldl_append]
    exact foldl_dpStepCPU_of_end Add xOf rand gs₂ _ hend
  · unfold Kangaroo.dpLoopCPU
    exact foldl_dpStepCPU_stdout Add xOf rand (List.range CPU_GRP_SIZE) w

end AfterSolution

/-- Witness of C18 on the toy worker with `endOfSearch` set: the loops leave it as it is,
although the table would signal a match for every report. -/
theorem matches_after_solution_dropped_witness :
    ({ toyWorker 3 with solver := { toySolver 3 with endOfSearch := true } }
        : Worker (ZMod 7) Unit).solver.endOfSearch = true ∧
    Kangaroo.dpLoopCPU toyAddWild toyXOf toyRand
        ({ toyWorker 3 with solver := { toySolver 3 with endOfSearch := true } }
          : Worker (ZMod 7) Unit)
      = { toyWorker 3 with solver := { toySolver 3 with endOfSearch := true } } :=
  ⟨rfl, ((matches_after_solution_dropped toyAddWild toyXOf toyRand
    ({ toyWorker 3 with solver := { toySolver 3 with endOfSearch := true } }
      : Worker (ZMod 7) Unit)).1 rfl).2.1⟩

/-! ## The herd layout -/

/-- At herd creation the kangaroo of slot `g` is Tame for an even `g` and Wild for an odd
one. -/
theorem createHerd_layout {E : Type} [AddCommGroup E] (self : Kangaroo E) (rand : ℕ → ℤ) :
    herdLayout (self.createHerd rand) := by
  intro g K hK
  unfold Kangaroo.createHerd at hK
  rw [List.getElem?_map] at hK
  cases hr : (List.range CPU_GRP_SIZE)[g]? with
  | none => rw [hr] at hK; simp at hK
  | some j =>
    have hj : j = g := by
      have := List.getElem?_eq_some.mp hr
      obtain ⟨_, h⟩ := this
      rw [List.getElem_range] at h
      exact h.symm
    rw [hr, hj] at hK
    simp only [Option.map_some', Option.some.injEq] at hK
    rw [← hK]
    apply Create_type
    rcases Nat.mod_two_eq_zero_or_one g with h | h
    · exact Or.inl h
    · exact Or.inr h

/-- The herd of the toy worker has the layout. -/
theorem toyWorker_layout (Q : ZMod 7) : herdLayout (toyWorker Q).herd := by
  intro g K hK
  rcases g with _ | _ | g
  · simp only [toyWorker, List.getElem?_cons_zero, Option.some.injEq] at hK
    rw [← hK]
    rfl
  · simp only [toyWorker, List.getElem?_cons_succ, List.getElem?_cons_zero,
      Option.some.injEq] at hK
    rw [← hK]
    rfl
  · simp [toyWorker] at hK

/-- C14 fails on the code at the unexpected-collision respawn.  The toy worker with target
`Q = 1` has the layout (Tame at slot `0`, Wild at slot `1`).  The Tame kangaroo of slot `0`
reports a point for which the table holds a Wild row of distance `4`; no candidate key
gives `Q`, so the outcome is the unexpected collision (nothing printed, `endOfSearch`
false), and `herd[0] = Create(type)` is created with the type of the stored row: slot `0`
now holds a Wild kangaroo and the layout is lost. -/
theorem herd_layout_broken_by_unexpected_collision :
    herdLayout (toyWorker 1).herd ∧
    ((toyWorker 1).herd.map fun K => K.type) = [TAME, WILD] ∧
    (Kangaroo.dpStepCPU toyAddWild toyXOf toyRand (toyWorker 1) 0).solver.endOfSearch = false ∧
    (Kangaroo.dpStepCPU toyAddWild toyXOf toyRand (toyWorker 1) 0).solver.stdout = [] ∧
    ((Kangaroo.dpStepCPU toyAddWild toyXOf toyRand (toyWorker 1) 0).herd.map fun K => K.type)
      = [WILD, WILD] ∧
    ¬ herdLayout (Kangaroo.dpStepCPU toyAddWild toyXOf toyRand (toyWorker 1) 0).herd := by
  have hmap : ((Kangaroo.dpStepCPU toyAddWild toyXOf toyRand (toyWorker 1) 0).herd.map
      fun K => K.type) = [WILD, WILD] := by decide
  refine ⟨toyWorker_layout 1, by decide, by decide, by decide, hmap, fun hlay => ?_⟩
  cases h0 : (Kangaroo.dpStepCPU toyAddWild toyXOf toyRand (toyWorker 1) 0).herd[0]? with
  | none =>
    have := congrArg (fun l => l[0]?) hmap
    simp only [List.getElem?_map, h0] at this
    simp at this
  | some K =>
    have hK := hlay 0 K h0
    have := congrArg (fun l => l[0]?) hmap
    simp only [List.getElem?_map, h0, Option.map_some', List.getElem?_cons_zero,
      Option.some.injEq] at this
    rw [this] at hK
    exact absurd hK (by decide)

/-! ## CPU and GPU match handlers -/

/-- C20 fails on the code at the unexpected collision.  For the toy solver with target
`Q = 1`, a Tame reporter of distance `5` (kangaroo index `0`) and a stored Wild row of
distance `4`, both handlers leave the same solver (nothing printed, `endOfSearch` false),
but `SolveKeyCPU` respawns `Create(type)` with the stored type, a Wild kangaroo, while
`SolveKeyGPU` respawns `Create(kType)` with the type of the reporter, a Tame one. -/
theorem cpu_gpu_respawn_differ :
    ((toySolver 1).matchCPU { pos := 0, distance := 5, type := TAME } WILD 4 1).1
      = ((toySolver 1).matchGPU 0 5 WILD 4 1).1 ∧
    ((toySolver 1).matchCPU { pos := 0, distance := 5, type := TAME } WILD 4 1).1.endOfSearch
      = false ∧
    ((toySolver 1).matchCPU { pos := 0, distance := 5, type := TAME } WILD 4 1).1.stdout
      = [] ∧
    ((toySolver 1).matchCPU { pos := 0, distance := 5, type := TAME } WILD 4 1).2.type
      = WILD ∧
    (((toySolver 1).matchGPU 0 5 WILD 4 1).2.map fun K => K.type) = some TAME := by
  refine ⟨?_, by decide, by decide, by decide, by decide⟩
  exact (matchGPU_cross_eq_matchCPU (toySolver 1) { pos := 0, distance := 5, type := TAME }
    0 WILD 4 1 rfl (by decide)).symm

/-! ## Optimal number of distinguished bits -/

/-- Truncation toward zero followed by the clamp of negative values is `max(0, ⌊x⌋)`, for
every value `x` of the `double` expression of line 594. -/
theorem optimalDPOfValue_eq (x : ℚ) : Kangaroo.optimalDPOfValue x = max 0 ⌊x⌋ := by
  unfold Kangaroo.optimalDPOfValue
  rw [Rat.floor_def]
  have hden : (0 : ℤ) < x.den := by exact_mod_cast x.den_pos
  rcases le_or_lt 0 x.num with h | h
  · rw [Int.tdiv_eq_ediv h hden.le]
    have hnn : 0 ≤ x.num / (x.den : ℤ) := Int.ediv_nonneg h hden.le
    simp only [if_neg (not_lt.mpr hnn)]
    rw [max_eq_right hnn]
  · have hfl : x.num / (x.den : ℤ) < 0 := Int.ediv_neg' h hden
    have htr : x.num.tdiv x.den ≤ 0 := by
      have h1 : x.num = -(-x.num) := by ring
      rw [h1, Int.neg_tdiv]
      have := Int.tdiv_nonneg (a := -x.num) (b := x.den) (by omega) hden.le
      omega
    rw [max_eq_left hfl.le]
    by_cases hlt : x.num.tdiv x.den < 0
    · simp only [if_pos hlt]
    · simp only [if_neg hlt]
      omega

/-! ## Matches on the abscissa only -/

section XOnly

open WeierstrassCurve.Affine hiding Point

/-- On the curve `y² = x³ + 7`, two points have the same abscissa exactly when they are
equal or opposite. -/
theorem same_x_iff_eq_or_neg {p : ℕ} [Fact p.Prime] {x₁ y₁ x₂ y₂ : ZMod p}
    (h₁ : (secpCurve p).Nonsingular x₁ y₁) (h₂ : (secpCurve p).Nonsingular x₂ y₂) :
    x₁ = x₂ ↔
      WeierstrassCurve.Affine.Point.some h₁ = WeierstrassCurve.Affine.Point.some h₂ ∨
      WeierstrassCurve.Affine.Point.some h₁ = -WeierstrassCurve.Affine.Point.some h₂ := by
  constructor
  · intro hx
    rcases Y_eq_of_X_eq h₁.1 h₂.1 hx with hy | hy
    · left
      simp only [WeierstrassCurve.Affine.Point.some.injEq]
      exact ⟨hx, hy⟩
    · right
      rw [WeierstrassCurve.Affine.Point.neg_some]
      simp only [WeierstrassCurve.Affine.Point.some.injEq]
      exact ⟨hx, hy⟩
  · rintro (h | h)
    · simp only [WeierstrassCurve.Affine.Point.some.injEq] at h
      exact h.1
    · rw [WeierstrassCurve.Affine.Point.neg_some] at h
      simp only [WeierstrassCurve.Affine.Point.some.injEq] at h
      exact h.1

end XOnly

/-- C15 fails on the code when the two positions are opposite.  In the group of order `7`
generated by `G` (on the toy curve over `ZMod 13`: `G = (7, 5)`, `3·G = (11, 8)`,
`4·G = (11, 5)`), with `rangeStart = 2` and target `Q = 3·G`: the Tame kangaroo with distance
`1` stands on `3·G`, the Wild kangaroo with distance `1` on `Q + G = 4·G = -3·G`.  Both
satisfy I1 and the two positions have the same abscissa.  The candidates are `k = 2` and
`n - k = 5`; neither gives `Q`, and the resolver, whichever kangaroo reports, ends in the
unexpected collision: nothing printed, `endOfSearch` false. -/
theorem xonly_match_unresolved :
    (3 : ZMod 7) = ((toySolver 3).rangeStart + 1) • (toySolver 3).secp.G ∧
    (4 : ZMod 7) = (toySolver 3).keyToSearch + (1 : ℤ) • (toySolver 3).secp.G ∧
    (3 : ZMod 7) = -4 ∧
    (toySolver 3).candidate TAME 1 1 = 2 ∧
    ((toySolver 3).candidate TAME 1 1) • (toySolver 3).secp.G ≠ (toySolver 3).keyToSearch ∧
    ((toySolver 3).secp.order - (toySolver 3).candidate TAME 1 1) • (toySolver 3).secp.G
      ≠ (toySolver 3).keyToSearch ∧
    ((toySolver 3).matchCPU { pos := 3, distance := 1, type := TAME } WILD 1 1).1.endOfSearch
      = false ∧
    ((toySolver 3).matchCPU { pos := 3, distance := 1, type := TAME } WILD 1 1).1.stdout
      = [] ∧
    ((toySolver 3).matchCPU { pos := 4, distance := 1, type := WILD } TAME 1 1).1.endOfSearch
      = false ∧
    ((toySolver 3).matchCPU { pos := 4, distance := 1, type := WILD } TAME 1 1).1.stdout
      = [] ∧
    ((toySolver 3).matchGPU 0 1 WILD 1 1).1.endOfSearch = false := by
  decide

/-- Witness of the amended C13 on the toy walker: two kangaroos standing on `(8, 5)` with
distances `0` and `3` stand on the same point after two steps. -/
theorem jump_determinism_witness :
    toyWild.pos = ({ toyWild with distance := 3 } : KANGAROO (Point 13)).pos ∧
    (toyWalker.stepExact^[2] toyWild).pos
      = (toyWalker.stepExact^[2] ({ toyWild with distance := 3 } : KANGAROO (Point 13))).pos :=
  ⟨rfl, ((jump_determinism toyWalker toyWild
    ({ toyWild with distance := 3 } : KANGAROO (Point 13))).2 rfl 2).1⟩
